import Mathlib

/-!
# Heap-file access layer (`heapfile.C`): shallow embedding and checked properties

The embedding follows `src/heapfile.C` function by function.

* C++ `int` values are mathematical integers of the 32-bit range; arithmetic on
  them wraps modulo `2^32` (`wrap32`), the behaviour of two's-complement hardware.
* A pointer that may be null is an `Option`; dereferencing null, reading or
  writing outside a buffer, using an indeterminate value and exhausting loop
  fuel are the `Fault`s.
* A local variable that the source reads before writing it is an explicit
  argument of the embedded function (its indeterminate value).
* The buffer cache, the file layer and the page class live outside
  `heapfile.C`; they are the fields of `Env`, over an arbitrary world `W`.
  Every call that `heapfile.C` issues to the buffer cache is recorded in the
  handle's `trace`.
-/

namespace HeapFileModel

/-! ## Scalars -/

/-- Value of a C++ `int` expression after two's-complement wrap-around. -/
def wrap32 (x : Int) : Int := (x + 2147483648) % 4294967296 - 2147483648

/-- Value of the cast `(unsigned int) x`. -/
def toUInt32 (x : Int) : Int := x % 4294967296

/-- The range of a C++ `int`. -/
def isInt32 (x : Int) : Prop := -2147483648 ≤ x ∧ x ≤ 2147483647

instance (x : Int) : Decidable (isInt32 x) := by
  unfold isInt32; exact inferInstance

abbrev Byte := Fin 256

/-- Ways in which an embedded function can fail to produce a C++ result. -/
inductive Fault where
  | nullDeref
  | outOfBounds
  | indeterminate
  | outOfFuel
  deriving DecidableEq, Repr

deriving instance DecidableEq for Except

/-- Status codes of `error.h` used by `heapfile.C`; every other code is `other`. -/
inductive Status where
  | OK
  | FILEEXISTS
  | BADSCANPARM
  | INVALIDRECLEN
  | NOSPACE
  | ENDOFPAGE
  | FILEEOF
  | other (code : Nat)
  deriving DecidableEq, Repr

/-- Enumeration `Datatype`; `other` stands for any value outside the enumerators. -/
inductive Datatype where
  | STRING
  | INTEGER
  | FLOAT
  | other (raw : Int)
  deriving DecidableEq, Repr

/-- Enumeration `Operator`; `other` stands for any value outside the enumerators. -/
inductive Operator where
  | LT
  | LTE
  | EQ
  | GTE
  | GT
  | NE
  | other (raw : Int)
  deriving DecidableEq, Repr

/-- Record identifier `RID` (page number, slot number). -/
structure RID where
  pageNo : Int
  slotNo : Int
  deriving DecidableEq, Repr

/-- The value of the expression `RID()`: both members zero. -/
def RID.init : RID := { pageNo := 0, slotNo := 0 }

/-- The C++ `Record`: a buffer and the length field that travels with it. -/
structure Record where
  data : List Byte
  length : Int
  deriving DecidableEq, Repr

/-! ## The filter matcher -/

/-- What the comparisons of `float diff` against `0.0` can observe. -/
inductive Diff where
  | neg
  | zero
  | pos
  | nan
  deriving DecidableEq, Repr

/-- Conversion of an `int` to `float diff`: the conversion is monotone and
maps only `0` to `0.0`, so the sign is what the comparisons see. -/
def Diff.ofInt (d : Int) : Diff :=
  if d < 0 then Diff.neg else if d = 0 then Diff.zero else Diff.pos

/-- The second `switch` of `matchRec`: the comparator applied to `diff`. -/
def evalOp : Operator → Diff → Bool
  | Operator.LT, d => decide (d = Diff.neg)
  | Operator.LTE, d => decide (d = Diff.neg ∨ d = Diff.zero)
  | Operator.EQ, d => decide (d = Diff.zero)
  | Operator.GTE, d => decide (d = Diff.pos ∨ d = Diff.zero)
  | Operator.GT, d => decide (d = Diff.pos)
  | Operator.NE, d => decide (d ≠ Diff.zero)
  | Operator.other _, _ => false

/-- The `len` bytes of a buffer that start at `off`; reading outside the
buffer is a fault. -/
def readBytes (buf : List Byte) (off : Int) (len : Nat) : Except Fault (List Byte) :=
  if 0 ≤ off ∧ off.toNat + len ≤ buf.length then
    Except.ok ((buf.drop off.toNat).take len)
  else Except.error Fault.outOfBounds

/-- The `int` held by four bytes in memory (little-endian, two's complement). -/
def decodeInt32 : List Byte → Int
  | [b0, b1, b2, b3] =>
      wrap32 ((b0.val : Int) + 256 * b1.val + 65536 * b2.val + 16777216 * b3.val)
  | _ => 0

/-- The four bytes that hold an `int` in memory (little-endian, two's complement). -/
def encodeInt32 (v : Int) : List Byte :=
  let u := (toUInt32 v).toNat
  [Fin.ofNat u, Fin.ofNat (u / 256), Fin.ofNat (u / 65536), Fin.ofNat (u / 16777216)]

/-- `memcpy(&i, buf + off, length)` into an `int`: only a copy of exactly
`sizeof(int)` bytes yields a determinate value. -/
def memcpyInt (buf : List Byte) (off : Int) (length : Int) : Except Fault Int :=
  if length = 4 then (readBytes buf off 4).map decodeInt32
  else Except.error Fault.indeterminate

/-- The library routine `strncmp(s1, s2, n)`: unsigned bytes are compared
until they differ, until a zero byte has been compared, or until `n` bytes
are done. A byte read past a buffer's end is a fault. -/
def strncmp : List Byte → List Byte → Nat → Except Fault Int
  | _, _, 0 => Except.ok 0
  | a :: as, b :: bs, n + 1 =>
      if a ≠ b then Except.ok ((a.val : Int) - b.val)
      else if a = 0 then Except.ok 0
      else strncmp as bs n
  | _, _, _ + 1 => Except.error Fault.outOfBounds

/-- The part of a handle that `startScan` writes and `matchRec` reads. -/
structure ScanFilter where
  offset : Int
  length : Int
  type : Datatype
  filter : Option (List Byte)
  op : Operator
  deriving DecidableEq, Repr

/-- The first `switch` of `matchRec`: the value of `diff`. The float
subtraction is the parameter `fsub`. -/
def matchDiff (fsub : List Byte → List Byte → Diff) (f : ScanFilter)
    (flt : List Byte) (rec : Record) : Except Fault Diff :=
  match f.type with
  | Datatype.INTEGER => do
      let iattr ← memcpyInt rec.data f.offset f.length
      let ifltr ← memcpyInt flt 0 f.length
      pure (Diff.ofInt (wrap32 (iattr - ifltr)))
  | Datatype.FLOAT => do
      if f.length ≠ 4 then throw Fault.indeterminate
      let fattr ← readBytes rec.data f.offset 4
      let ffltr ← readBytes flt 0 4
      pure (fsub fattr ffltr)
  | Datatype.STRING =>
      if 0 ≤ f.offset ∧ f.offset.toNat ≤ rec.data.length then
        (strncmp (rec.data.drop f.offset.toNat) flt (f.length % 18446744073709551616).toNat).map
          Diff.ofInt
      else Except.error Fault.outOfBounds
  | Datatype.other _ => pure Diff.zero

/-- `HeapFileScan::matchRec`. -/
def matchRec (fsub : List Byte → List Byte → Diff) (f : ScanFilter) (rec : Record) :
    Except Fault Bool :=
  match f.filter with
  | none => pure true
  | some flt =>
      if wrap32 (wrap32 (f.offset + f.length) - 1) ≥ rec.length then pure false
      else do
        let diff ← matchDiff fsub f flt rec
        pure (evalOp f.op diff)

/-- `HeapFileScan::startScan`: the status and the filter fields afterwards. -/
def ScanFilter.startScan (f : ScanFilter) (offset_ length_ : Int) (type_ : Datatype)
    (filter_ : Option (List Byte)) (op_ : Operator) : Status × ScanFilter :=
  match filter_ with
  | none => (Status.OK, { f with filter := none })
  | some flt =>
      if (offset_ < 0 ∨ length_ < 1) ∨
         (type_ ≠ Datatype.STRING ∧ type_ ≠ Datatype.INTEGER ∧ type_ ≠ Datatype.FLOAT) ∨
         (type_ = Datatype.INTEGER ∧ length_ ≠ 4 ∨ type_ = Datatype.FLOAT ∧ length_ ≠ 4) ∨
         (op_ ≠ Operator.LT ∧ op_ ≠ Operator.LTE ∧ op_ ≠ Operator.EQ ∧ op_ ≠ Operator.GTE ∧
          op_ ≠ Operator.GT ∧ op_ ≠ Operator.NE) then
        (Status.BADSCANPARM, f)
      else
        (Status.OK, { offset := offset_, length := length_, type := type_,
                      filter := some flt, op := op_ })

/-! ## The handle and its collaborators -/

/-- The C string held by a buffer: its bytes before the first zero byte. -/
def cstr (l : List Byte) : List Byte := l.takeWhile (fun b => b ≠ 0)

/-- The bytes of a `std::string`, the text in its UTF-8 form. -/
def stringBytes (s : String) : List Byte :=
  (s.data.flatMap String.utf8EncodeChar).map
    (fun b => (⟨b.toNat % 256, Nat.mod_lt _ (by decide)⟩ : Byte))

/-- The buffer returned by `c_str()`: the bytes of the string followed by a
zero byte. -/
def c_str (s : String) : List Byte := stringBytes s ++ [0]

/-- The call `strcpy(dst, src)` on the array `dst`: the bytes of `src` up to
and including its first zero byte replace the leading bytes of `dst`, whose
other bytes stay. A source with no zero byte is read past its end, and a
copy longer than `dst` is written past the end of `dst`; the language
defines neither, and both are faults. -/
def strcpy (dst src : List Byte) : Except Fault (List Byte) :=
  if (0 : Byte) ∈ src then
    if (cstr src).length + 1 ≤ dst.length then
      Except.ok (cstr src ++ [0] ++ dst.drop ((cstr src).length + 1))
    else Except.error Fault.outOfBounds
  else Except.error Fault.outOfBounds

/-- The header page `FileHdrPage`. The member `fileName` is a `char` array of
fixed size (a constant of `heapfile.h`); it is the list of its bytes, one
per element, and the length of the list is the size of the array. -/
structure FileHdrPage where
  fileName : List Byte
  firstPage : Int
  lastPage : Int
  pageCnt : Int
  recCnt : Int
  deriving DecidableEq, Repr

/-- A call issued to the buffer cache. -/
inductive BufCall where
  | readPage (pageNo : Int)
  | allocPage
  | unPinPage (pageNo : Int) (dirty : Bool)
  deriving DecidableEq, Repr

/-- The constants `PAGESIZE` and `DPFIXED` of the page class. -/
structure Consts where
  PAGESIZE : Int
  DPFIXED : Int
  deriving DecidableEq, Repr

/-- The collaborators of `heapfile.C` over a world `W`: the file layer `db`,
the buffer cache `bufMgr`, the page class applied to the frame that holds a
page number, the layout of the header page, and float subtraction. -/
structure Env (W : Type) where
  openFile : W → String → Status × W
  createFile : W → String → Status × W
  closeFile : W → Status × W
  destroyFile : W → String → Status × W
  readPage : W → Int → Status × W
  allocPage : W → Status × Int × W
  unPinPage : W → Int → Bool → Status × W
  hdrRead : W → Int → FileHdrPage
  hdrWrite : W → Int → FileHdrPage → W
  pageInit : W → Int → Int → W
  pageInsertRecord : W → Int → Record → Status × RID × W
  pageDeleteRecord : W → Int → RID → Status × W
  pageGetRecord : W → Int → RID → Status × Record
  pageNextRecord : W → Int → RID → Status × RID
  pageGetNextPage : W → Int → Status × Int
  pageSetNextPage : W → Int → Int → Status × W
  fsub : List Byte → List Byte → Diff

/-- The members of `HeapFile` and of its subclass `HeapFileScan`, with the
world they act on. `headerPage` is the content of the pinned header frame;
`curPage` is the page number whose frame the pointer refers to. -/
structure HeapFile (W : Type) where
  world : W
  trace : List BufCall
  headerPage : FileHdrPage
  headerPageNo : Int
  curPage : Option Int
  curPageNo : Int
  curDirtyFlag : Bool
  hdrDirtyFlag : Bool
  curRec : RID
  scan : ScanFilter
  markedPageNo : Int
  markedRec : RID

variable {W : Type}

/-- The call `bufMgr->readPage(filePtr, pageNo, curPage)`: the pointer is
assigned only when the read succeeds. -/
def bufReadPage (env : Env W) (h : HeapFile W) (pageNo : Int) : Status × HeapFile W :=
  let r := env.readPage h.world pageNo
  (r.1, { h with world := r.2, trace := h.trace ++ [BufCall.readPage pageNo],
                 curPage := if r.1 = Status.OK then some pageNo else h.curPage })

/-- The call `bufMgr->unPinPage(filePtr, pageNo, dirty)`. -/
def bufUnPinPage (env : Env W) (h : HeapFile W) (pageNo : Int) (dirty : Bool) :
    Status × HeapFile W :=
  let r := env.unPinPage h.world pageNo dirty
  (r.1, { h with world := r.2, trace := h.trace ++ [BufCall.unPinPage pageNo dirty] })

/-- The call `bufMgr->allocPage(filePtr, newPageNo, newPage)`. -/
def bufAllocPage (env : Env W) (h : HeapFile W) : Status × Int × HeapFile W :=
  let r := env.allocPage h.world
  (r.1, r.2.1, { h with world := r.2.2, trace := h.trace ++ [BufCall.allocPage] })

/-- The function `createHeapFile`: the status, the world and the buffer-cache
calls made. `garbage` is what the frame of the newly allocated header page
holds before it is written; `strcpy` writes the name into its `fileName`
array. The header content is stored in its frame before the unpin. -/
def createHeapFile (env : Env W) (w : W) (fileName : String) (garbage : FileHdrPage) :
    Except Fault (Status × W × List BufCall) :=
  let o := env.openFile w fileName
  if o.1 = Status.OK then Except.ok (Status.FILEEXISTS, o.2, [])
  else
    let c := env.createFile o.2 fileName
    if c.1 ≠ Status.OK then Except.ok (c.1, c.2, [])
    else
      let o2 := env.openFile c.2 fileName
      if o2.1 ≠ Status.OK then Except.ok (o2.1, o2.2, [])
      else
        let a := env.allocPage o2.2
        if a.1 ≠ Status.OK then Except.ok (a.1, a.2.2, [BufCall.allocPage])
        else
          let hdrPageNo := a.2.1
          match strcpy garbage.fileName (c_str fileName) with
          | Except.error e => Except.error e
          | Except.ok nameField =>
              let hdr : FileHdrPage :=
                { garbage with fileName := nameField, pageCnt := 1, recCnt := 0 }
              let d := env.allocPage a.2.2
              if d.1 ≠ Status.OK then
                let u := env.unPinPage (env.hdrWrite d.2.2 hdrPageNo hdr) hdrPageNo false
                Except.ok (d.1, u.2,
                  [BufCall.allocPage, BufCall.allocPage, BufCall.unPinPage hdrPageNo false])
              else
                let dataPageNo := d.2.1
                let w1 := env.pageInit d.2.2 dataPageNo dataPageNo
                let hdr2 := { hdr with firstPage := dataPageNo, lastPage := dataPageNo }
                let u1 := env.unPinPage (env.hdrWrite w1 hdrPageNo hdr2) hdrPageNo true
                let u2 := env.unPinPage u1.2 dataPageNo true
                Except.ok (Status.OK, u2.2,
                  [BufCall.allocPage, BufCall.allocPage, BufCall.unPinPage hdrPageNo true,
                   BufCall.unPinPage dataPageNo true])

/-- The function `destroyHeapFile`. -/
def destroyHeapFile (env : Env W) (w : W) (fileName : String) : Status × W :=
  env.destroyFile w fileName

/-- The constructor `HeapFile::HeapFile`. `init` gives the indeterminate
values the members have before the constructor runs; when the header page
cannot be read, `headerPage` keeps such a value. -/
def HeapFile.open (env : Env W) (init : HeapFile W) (w : W) (fileName : String) :
    Status × HeapFile W :=
  let o := env.openFile w fileName
  let h0 : HeapFile W := { init with world := o.2, trace := [] }
  if o.1 = Status.OK then
    let h1 := { h0 with headerPageNo := 1 }
    let r := bufReadPage env h1 1
    if r.1 ≠ Status.OK then
      (r.1, { r.2 with world := (env.closeFile r.2.world).2 })
    else
      (Status.OK, { r.2 with headerPage := env.hdrRead r.2.world 1,
                             curPage := none, curPageNo := 0, curDirtyFlag := false,
                             hdrDirtyFlag := false })
  else (o.1, h0)

/-- The destructor `HeapFile::~HeapFile`: the world it leaves and the handle's
final trace. -/
def HeapFile.close (env : Env W) (h : HeapFile W) : HeapFile W :=
  let h1 :=
    if h.curPage.isSome then
      { (bufUnPinPage env h h.curPageNo h.curDirtyFlag).2 with
          curPage := none, curPageNo := 0, curDirtyFlag := false }
    else h
  let h2 := { h1 with world := env.hdrWrite h1.world h1.headerPageNo h1.headerPage }
  let h3 := (bufUnPinPage env h2 h2.headerPageNo h2.hdrDirtyFlag).2
  { h3 with world := (env.closeFile h3.world).2 }

/-- The method `HeapFile::getRecCnt`. -/
def HeapFile.getRecCnt (h : HeapFile W) : Int := h.headerPage.recCnt

/-- The method `HeapFile::getRecord`. `status0` is the indeterminate value of
the local `status`, which is returned unwritten when the page is already the
current one. The record is `none` when the page layer reports a failure. -/
def HeapFile.getRecord (env : Env W) (status0 : Status) (h : HeapFile W) (rid : RID) :
    Except Fault (Status × Option Record × HeapFile W) :=
  let fetch (st : Status) (g : HeapFile W) : Except Fault (Status × Option Record × HeapFile W) :=
    match g.curPage with
    | none => Except.error Fault.nullDeref
    | some p =>
        let r := env.pageGetRecord g.world p rid
        Except.ok (st, if r.1 = Status.OK then some r.2 else none, g)
  if rid.pageNo ≠ h.curPageNo then
    let h1 := if h.curPage.isSome then (bufUnPinPage env h h.curPageNo h.curDirtyFlag).2 else h
    let r := bufReadPage env h1 rid.pageNo
    if r.1 ≠ Status.OK then Except.ok (r.1, none, r.2)
    else fetch r.1 { r.2 with curPageNo := rid.pageNo, curDirtyFlag := false }
  else fetch status0 h

/-! ## The scan engine -/

/-- The constructor `HeapFileScan::HeapFileScan`. -/
def HeapFileScan.open (env : Env W) (init : HeapFile W) (w : W) (name : String) :
    Status × HeapFile W :=
  let r := HeapFile.open env init w name
  (r.1, { r.2 with scan := { r.2.scan with filter := none } })

/-- The method `HeapFileScan::startScan` on the handle. -/
def HeapFileScan.startScan (h : HeapFile W) (offset_ length_ : Int) (type_ : Datatype)
    (filter_ : Option (List Byte)) (op_ : Operator) : Status × HeapFile W :=
  let r := h.scan.startScan offset_ length_ type_ filter_ op_
  (r.1, { h with scan := r.2 })

/-- The method `HeapFileScan::endScan`. -/
def HeapFileScan.endScan (env : Env W) (h : HeapFile W) : Status × HeapFile W :=
  if h.curPage.isSome then
    let u := bufUnPinPage env h h.curPageNo h.curDirtyFlag
    (u.1, { u.2 with curPage := none, curPageNo := 0, curDirtyFlag := false })
  else (Status.OK, h)

/-- The destructor `HeapFileScan::~HeapFileScan`, followed by the base
destructor. -/
def HeapFileScan.close (env : Env W) (h : HeapFile W) : HeapFile W :=
  HeapFile.close env (HeapFileScan.endScan env h).2

/-- The method `HeapFileScan::markScan`. -/
def HeapFileScan.markScan (h : HeapFile W) : Status × HeapFile W :=
  (Status.OK, { h with markedPageNo := h.curPageNo, markedRec := h.curRec })

/-- The method `HeapFileScan::resetScan`. -/
def HeapFileScan.resetScan (env : Env W) (h : HeapFile W) : Status × HeapFile W :=
  if h.markedPageNo ≠ h.curPageNo then
    let u := if h.curPage.isSome then bufUnPinPage env h h.curPageNo h.curDirtyFlag
             else (Status.OK, h)
    if h.curPage.isSome ∧ u.1 ≠ Status.OK then u
    else
      let h1 := { u.2 with curPageNo := h.markedPageNo, curRec := h.markedRec }
      let r := bufReadPage env h1 h1.curPageNo
      if r.1 ≠ Status.OK then r
      else (Status.OK, { r.2 with curDirtyFlag := false })
  else (Status.OK, { h with curRec := h.markedRec })

/-- The method `HeapFileScan::scanNext`. `tmpRid` is the indeterminate value
of the local of that name, which no statement writes; `outRid` is the value
the caller's variable holds on entry. The result carries the value of the
caller's variable on return. Each loop iteration costs one unit of fuel. -/
def HeapFileScan.scanNext (env : Env W) :
    Nat → RID → RID → HeapFile W → Except Fault (Status × RID × HeapFile W)
  | 0, _, _, _ => Except.error Fault.outOfFuel
  | fuel + 1, tmpRid, outRid, h =>
      match h.curPage with
      | none => Except.error Fault.nullDeref
      | some p =>
          let n := env.pageNextRecord h.world p tmpRid
          if n.1 = Status.ENDOFPAGE then
            let g := env.pageGetNextPage h.world p
            if g.1 ≠ Status.OK then Except.ok (g.1, outRid, h)
            else
              let u := bufUnPinPage env h h.curPageNo h.curDirtyFlag
              let r := bufReadPage env u.2 g.2
              if r.1 ≠ Status.OK then Except.ok (r.1, outRid, r.2)
              else
                HeapFileScan.scanNext env fuel tmpRid outRid
                  { r.2 with curPageNo := g.2, curDirtyFlag := false,
                             curRec := RID.init }
          else if n.1 ≠ Status.OK then Except.ok (n.1, outRid, h)
          else
            let gr := env.pageGetRecord h.world p outRid
            if gr.1 ≠ Status.OK then Except.ok (gr.1, outRid, h)
            else
              match matchRec env.fsub h.scan gr.2 with
              | Except.error e => Except.error e
              | Except.ok true => Except.ok (Status.OK, outRid, h)
              | Except.ok false => HeapFileScan.scanNext env fuel tmpRid outRid h

/-- The method `HeapFileScan::getRecord`. -/
def HeapFileScan.getRecord (env : Env W) (h : HeapFile W) :
    Except Fault (Status × Option Record) :=
  match h.curPage with
  | none => Except.error Fault.nullDeref
  | some p =>
      let r := env.pageGetRecord h.world p h.curRec
      Except.ok (r.1, if r.1 = Status.OK then some r.2 else none)

/-- The method `HeapFileScan::deleteRecord`. -/
def HeapFileScan.deleteRecord (env : Env W) (h : HeapFile W) :
    Except Fault (Status × HeapFile W) :=
  match h.curPage with
  | none => Except.error Fault.nullDeref
  | some p =>
      let d := env.pageDeleteRecord h.world p h.curRec
      Except.ok (d.1,
        { h with world := d.2, curDirtyFlag := true,
                 headerPage := { h.headerPage with recCnt := wrap32 (h.headerPage.recCnt - 1) },
                 hdrDirtyFlag := true })

/-- The method `HeapFileScan::markDirty`. -/
def HeapFileScan.markDirty (h : HeapFile W) : Status × HeapFile W :=
  (Status.OK, { h with curDirtyFlag := true })

/-! ## The insert engine -/

/-- The constructor `InsertFileScan::InsertFileScan`. -/
def InsertFileScan.open (env : Env W) (init : HeapFile W) (w : W) (name : String) :
    Status × HeapFile W :=
  HeapFile.open env init w name

/-- The destructor `InsertFileScan::~InsertFileScan`, followed by the base
destructor. -/
def InsertFileScan.close (env : Env W) (h : HeapFile W) : HeapFile W :=
  let h1 :=
    if h.curPage.isSome then
      { (bufUnPinPage env h h.curPageNo true).2 with curPage := none, curPageNo := 0 }
    else h
  HeapFile.close env h1

/-- The test `(unsigned int) rec.length > PAGESIZE-DPFIXED` of `insertRecord`. -/
def recTooLarge (c : Consts) (rec : Record) : Bool :=
  decide (toUInt32 rec.length > toUInt32 (c.PAGESIZE - c.DPFIXED))

/-- The body of `InsertFileScan::insertRecord` from the first page insertion
on, entered with a non-null `curPage`. -/
def insertOnPage (env : Env W) (h : HeapFile W) (rec : Record) (outRid : RID) :
    Except Fault (Status × RID × HeapFile W) :=
  match h.curPage with
  | none => Except.error Fault.nullDeref
  | some p =>
      let i := env.pageInsertRecord h.world p rec
      let h1 := { h with world := i.2.2 }
      let finish (rid : RID) (g : HeapFile W) : Except Fault (Status × RID × HeapFile W) :=
        Except.ok (Status.OK, rid,
          { g with headerPage := { g.headerPage with recCnt := wrap32 (g.headerPage.recCnt + 1) },
                   hdrDirtyFlag := true, curDirtyFlag := true })
      if i.1 = Status.NOSPACE then
        let a := bufAllocPage env h1
        if a.1 ≠ Status.OK then Except.ok (a.1, outRid, a.2.2)
        else
          let newPageNo := a.2.1
          let u := bufUnPinPage env a.2.2 h1.curPageNo h1.curDirtyFlag
          let h2 := { u.2 with world := env.pageInit u.2.world newPageNo newPageNo,
                               curPageNo := newPageNo, curPage := some newPageNo,
                               curDirtyFlag := true }
          let l := env.pageSetNextPage h2.world newPageNo h2.headerPage.lastPage
          let h3 := { h2 with world := l.2 }
          if l.1 ≠ Status.OK then Except.ok (l.1, outRid, h3)
          else
            let h4 := { h3 with headerPage := { h3.headerPage with
                                  lastPage := newPageNo,
                                  pageCnt := wrap32 (h3.headerPage.pageCnt + 1) },
                                hdrDirtyFlag := true }
            let j := env.pageInsertRecord h4.world newPageNo rec
            let h5 := { h4 with world := j.2.2 }
            if j.1 ≠ Status.OK then Except.ok (j.1, outRid, h5)
            else finish j.2.1 h5
      else if i.1 ≠ Status.OK then Except.ok (i.1, outRid, h1)
      else finish i.2.1 h1

/-- The step `if (curPage == nullptr)` of `insertRecord`: the last page of
the file is read into the buffer when no page is current. -/
def pinForInsert (env : Env W) (h : HeapFile W) : Status × HeapFile W :=
  if h.curPage.isNone then
    bufReadPage env { h with curPageNo := h.headerPage.lastPage } h.headerPage.lastPage
  else (Status.OK, h)

/-- The body of `InsertFileScan::insertRecord` after the length check. -/
def insertAfterCheck (env : Env W) (h : HeapFile W) (rec : Record) (outRid : RID) :
    Except Fault (Status × RID × HeapFile W) :=
  let r := pinForInsert env h
  if r.1 ≠ Status.OK then Except.ok (r.1, outRid, r.2)
  else insertOnPage env r.2 rec outRid

/-- The method `InsertFileScan::insertRecord`. `outRid` is the value the
caller's variable holds on entry; the result carries its value on return. -/
def InsertFileScan.insertRecord (env : Env W) (c : Consts) (h : HeapFile W) (rec : Record)
    (outRid : RID) : Except Fault (Status × RID × HeapFile W) :=
  if recTooLarge c rec then Except.ok (Status.INVALIDRECLEN, outRid, h)
  else insertAfterCheck env h rec outRid

/-! ## A concrete world

A database that holds at most one file, whose pages are numbered from 1.
It serves to run the embedded code on concrete inputs. -/

/-- Modelled from the spec: the page abstraction of the external interfaces
(init, getRecord, insertRecord with a no-space answer, deleteRecord, next
slot with an end-of-page answer, forward link or none, set forward link).
A slot holds a record or is empty; `nextPage = -1` is the missing link. -/
structure SimPage where
  pageNo : Int
  nextPage : Int
  slots : List (Option Record)
  deriving DecidableEq, Repr

/-- Modelled from the spec: the storage layer and buffer cache of the
external interfaces (open/create/close/destroy by name, allocate, read,
unpin), reduced to one file. `pins` lists the page numbers pinned, one
entry per pin. -/
structure SimWorld where
  file : Option String
  hdr : FileHdrPage
  pages : List SimPage
  pins : List Int
  deriving DecidableEq, Repr

/-- The page with number `n`. -/
def SimWorld.getPage (w : SimWorld) (n : Int) : Option SimPage :=
  if 1 ≤ n then w.pages.get? (n - 1).toNat else none

/-- The world with page number `n` replaced. -/
def SimWorld.setPage (w : SimWorld) (n : Int) (pg : SimPage) : SimWorld :=
  if 1 ≤ n then { w with pages := w.pages.set (n - 1).toNat pg } else w

/-- Bytes taken on a page by its records, four bytes of slot entry each. -/
def SimPage.used (pg : SimPage) : Int :=
  (pg.slots.map (fun s => match s with
    | some r => r.length + 4
    | none => 0)).sum

/-- Index of the first occupied slot at or after position `i`. -/
def firstLive : List (Option Record) → Nat → Option Nat
  | [], _ => none
  | some _ :: _, i => some i
  | none :: rest, i => firstLive rest (i + 1)

/-- Modelled from the spec: the collaborators over `SimWorld`. A page takes
a record when the bytes in use plus the record fit in `PAGESIZE - DPFIXED`;
a missing forward link is reported with the end-of-file status. Floats are
not interpreted. -/
def simEnv (c : Consts) : Env SimWorld where
  openFile w name := if w.file = some name then (Status.OK, w) else (Status.other 1, w)
  createFile w name :=
    if w.file = none then (Status.OK, { w with file := some name, pages := [], pins := [] })
    else if w.file = some name then (Status.FILEEXISTS, w)
    else (Status.other 2, w)
  closeFile w := (Status.OK, w)
  destroyFile w name :=
    if w.file = some name then (Status.OK, { w with file := none, pages := [], pins := [] })
    else (Status.other 1, w)
  readPage w n :=
    match w.getPage n with
    | some _ => (Status.OK, { w with pins := n :: w.pins })
    | none => (Status.other 3, w)
  allocPage w :=
    let n : Int := w.pages.length + 1
    (Status.OK, n,
      { w with pages := w.pages ++ [{ pageNo := 0, nextPage := 0, slots := [] }],
               pins := n :: w.pins })
  unPinPage w n _ :=
    if n ∈ w.pins then (Status.OK, { w with pins := w.pins.erase n }) else (Status.other 4, w)
  hdrRead w _ := w.hdr
  hdrWrite w _ hdr := { w with hdr := hdr }
  pageInit w p n := w.setPage p { pageNo := n, nextPage := -1, slots := [] }
  pageInsertRecord w p rec :=
    match w.getPage p with
    | none => (Status.other 3, RID.init, w)
    | some pg =>
        if pg.used + rec.length + 4 ≤ c.PAGESIZE - c.DPFIXED + 4 then
          (Status.OK, { pageNo := pg.pageNo, slotNo := pg.slots.length },
            w.setPage p { pg with slots := pg.slots ++ [some rec] })
        else (Status.NOSPACE, RID.init, w)
  pageDeleteRecord w p rid :=
    match w.getPage p with
    | none => (Status.other 3, w)
    | some pg =>
        if 0 ≤ rid.slotNo then
          match pg.slots.get? rid.slotNo.toNat with
          | some (some _) =>
              (Status.OK, w.setPage p { pg with slots := pg.slots.set rid.slotNo.toNat none })
          | _ => (Status.other 5, w)
        else (Status.other 5, w)
  pageGetRecord w p rid :=
    match w.getPage p with
    | none => (Status.other 3, { data := [], length := 0 })
    | some pg =>
        if 0 ≤ rid.slotNo then
          match pg.slots.get? rid.slotNo.toNat with
          | some (some r) => (Status.OK, r)
          | _ => (Status.other 5, { data := [], length := 0 })
        else (Status.other 5, { data := [], length := 0 })
  pageNextRecord w p rid :=
    match w.getPage p with
    | none => (Status.other 3, RID.init)
    | some pg =>
        let start := (rid.slotNo + 1).toNat
        match firstLive (pg.slots.drop start) start with
        | some i => (Status.OK, { pageNo := pg.pageNo, slotNo := i })
        | none => (Status.ENDOFPAGE, RID.init)
  pageGetNextPage w p :=
    match w.getPage p with
    | none => (Status.other 3, 0)
    | some pg => if pg.nextPage = -1 then (Status.FILEEOF, -1) else (Status.OK, pg.nextPage)
  pageSetNextPage w p n :=
    match w.getPage p with
    | none => (Status.other 3, w)
    | some pg => (Status.OK, w.setPage p { pg with nextPage := n })
  fsub _ _ := Diff.zero

/-- The page constants of the concrete runs: pages of 1024 bytes with 20
bytes of fixed overhead. -/
def simConsts : Consts := { PAGESIZE := 1024, DPFIXED := 20 }

/-- An empty database. The name field of a header page has 50 bytes. -/
def emptyWorld : SimWorld :=
  { file := none,
    hdr := { fileName := List.replicate 50 0, firstPage := 0, lastPage := 0, pageCnt := 0,
             recCnt := 0 },
    pages := [], pins := [] }

/-- Member values of a handle before its constructor runs. -/
def rawHandle (w : SimWorld) : HeapFile SimWorld :=
  { world := w, trace := [], headerPage := w.hdr, headerPageNo := 0, curPage := none,
    curPageNo := 0, curDirtyFlag := false, hdrDirtyFlag := false, curRec := RID.init,
    scan := { offset := 0, length := 0, type := Datatype.STRING, filter := none,
              op := Operator.EQ },
    markedPageNo := 0, markedRec := RID.init }

/-- A record of `n` bytes, each equal to `b`. -/
def mkRecord (n : Nat) (b : Byte) : Record := { data := List.replicate n b, length := n }

/-! ## Concrete runs -/

/-- The handle of a result, or the given handle when the call faulted. -/
def handleOf (r : Except Fault (Status × RID × HeapFile SimWorld)) (dflt : HeapFile SimWorld) :
    HeapFile SimWorld :=
  match r with
  | Except.ok x => x.2.2
  | Except.error _ => dflt

/-- The world after `createHeapFile` of the file t1 in an empty database. -/
def createdWorld : SimWorld :=
  match createHeapFile (simEnv simConsts) emptyWorld "t1" emptyWorld.hdr with
  | Except.ok r => r.2.1
  | Except.error _ => emptyWorld

/-- An insert handle opened on the new file. -/
def freshInsert : HeapFile SimWorld :=
  (InsertFileScan.open (simEnv simConsts) (rawHandle createdWorld) createdWorld "t1").2

/-- The insert handle after one record of `n` bytes has been inserted. -/
def afterOneInsert (n : Nat) : HeapFile SimWorld :=
  handleOf (InsertFileScan.insertRecord (simEnv simConsts) simConsts freshInsert
    (mkRecord n 65) RID.init) freshInsert

/-- The insert handle after a second record of `n` bytes has been inserted. -/
def afterTwoInserts (n : Nat) : HeapFile SimWorld :=
  handleOf (InsertFileScan.insertRecord (simEnv simConsts) simConsts (afterOneInsert n)
    (mkRecord n 66) RID.init) (afterOneInsert n)

/-- The world left by the insert handle's destructor after one 10-byte record. -/
def oneRecordWorld : SimWorld :=
  (InsertFileScan.close (simEnv simConsts) (afterOneInsert 10)).world

/-- A scan handle opened on the file that holds one record, with no filter. -/
def freshScan : HeapFile SimWorld :=
  (HeapFileScan.startScan
    (HeapFileScan.open (simEnv simConsts) (rawHandle oneRecordWorld) oneRecordWorld "t1").2
    0 0 Datatype.STRING none Operator.EQ).2

/-- A scan handle opened on the new, empty file. -/
def emptyScan : HeapFile SimWorld :=
  (HeapFileScan.open (simEnv simConsts) (rawHandle createdWorld) createdWorld "t1").2

/-- The scan handle on the empty file after `HeapFile::getRecord` of the RID
(2, 0) has pinned page 2; `r` is the indeterminate value of `curRec`. -/
def emptyPositioned (r : RID) : HeapFile SimWorld :=
  match HeapFile.getRecord (simEnv simConsts) Status.OK emptyScan { pageNo := 2, slotNo := 0 } with
  | Except.ok x => { x.2.2 with curRec := r }
  | Except.error _ => emptyScan

/-- Lexicographic comparison of two byte strings, bytes taken as unsigned:
negative, zero or positive. -/
def lexCmp : List Byte → List Byte → Int
  | [], [] => 0
  | [], _ :: _ => -1
  | _ :: _, [] => 1
  | a :: as, b :: bs => if a < b then -1 else if b < a then 1 else lexCmp as bs

/-- The window of `n` bytes of a record at offset `off`. -/
def window (rec : Record) (off n : Int) : List Byte :=
  (rec.data.drop off.toNat).take n.toNat

/-! ## Sequences of handle operations -/

/-- A call of a method of an open handle, with the arguments and the
indeterminate values the call reads. -/
inductive Op where
  | getRecord (status0 : Status) (rid : RID)
  | startScan (offset_ length_ : Int) (type_ : Datatype) (filter_ : Option (List Byte))
      (op_ : Operator)
  | endScan
  | markScan
  | resetScan
  | scanNext (fuel : Nat) (tmpRid outRid : RID)
  | scanGetRecord
  | deleteRecord
  | markDirty
  | insertRecord (c : Consts) (rec : Record) (outRid : RID)

/-- The handle after one call; the status and the other outputs are dropped. -/
def Op.run (env : Env W) : Op → HeapFile W → Except Fault (HeapFile W)
  | Op.getRecord status0 rid, h => (HeapFile.getRecord env status0 h rid).map (fun r => r.2.2)
  | Op.startScan o l t f c, h => Except.ok (HeapFileScan.startScan h o l t f c).2
  | Op.endScan, h => Except.ok (HeapFileScan.endScan env h).2
  | Op.markScan, h => Except.ok (HeapFileScan.markScan h).2
  | Op.resetScan, h => Except.ok (HeapFileScan.resetScan env h).2
  | Op.scanNext fuel tmpRid outRid, h =>
      (HeapFileScan.scanNext env fuel tmpRid outRid h).map (fun r => r.2.2)
  | Op.scanGetRecord, h => (HeapFileScan.getRecord env h).map (fun _ => h)
  | Op.deleteRecord, h => (HeapFileScan.deleteRecord env h).map (fun r => r.2)
  | Op.markDirty, h => Except.ok (HeapFileScan.markDirty h).2
  | Op.insertRecord c rec outRid, h =>
      (InsertFileScan.insertRecord env c h rec outRid).map (fun r => r.2.2)

/-- The handle after a sequence of calls; a fault ends the run. -/
def runOps (env : Env W) : List Op → HeapFile W → Except Fault (HeapFile W)
  | [], h => Except.ok h
  | op :: ops, h =>
      match op.run env h with
      | Except.ok h' => runOps env ops h'
      | Except.error e => Except.error e

/-- Whether a call is `markScan`. -/
def Op.isMark : Op → Bool
  | Op.markScan => true
  | _ => false

/-! ## More concrete runs -/

/-- The world left by the insert handle's destructor after two 10-byte
records, the first of bytes 65 at RID (2, 0), the second of bytes 66 at
RID (2, 1). -/
def twoRecordWorld : SimWorld :=
  (InsertFileScan.close (simEnv simConsts) (afterTwoInserts 10)).world

/-- A scan handle on the file with two records, with no filter, after
`HeapFile::getRecord` of the RID (2, 1) has pinned page 2. -/
def pinnedScan : HeapFile SimWorld :=
  match HeapFile.getRecord (simEnv simConsts) Status.OK
      (HeapFileScan.startScan
        (HeapFileScan.open (simEnv simConsts) (rawHandle twoRecordWorld) twoRecordWorld "t1").2
        0 0 Datatype.STRING none Operator.EQ).2 { pageNo := 2, slotNo := 1 } with
  | Except.ok x => x.2.2
  | Except.error _ => rawHandle twoRecordWorld

/-- The scan handle with page 2 pinned after a `HeapFile::getRecord` whose
page, number 99, does not exist. -/
def afterFailedRead : HeapFile SimWorld :=
  match HeapFile.getRecord (simEnv simConsts) Status.OK (emptyPositioned RID.init)
      { pageNo := 99, slotNo := 0 } with
  | Except.ok x => x.2.2
  | Except.error _ => emptyScan

/-- The world left by the insert handle's destructor after the overflow:
data pages 2 and 3, one 600-byte record on each. -/
def overflowWorld : SimWorld :=
  (InsertFileScan.close (simEnv simConsts) (afterTwoInserts 600)).world

/-- A scan handle on the file with two data pages, page 2 pinned by
`HeapFile::getRecord` of the RID (2, 0). -/
def scanOnPage2 : HeapFile SimWorld :=
  match HeapFile.getRecord (simEnv simConsts) Status.OK
      (HeapFileScan.open (simEnv simConsts) (rawHandle overflowWorld) overflowWorld "t1").2
      { pageNo := 2, slotNo := 0 } with
  | Except.ok x => x.2.2
  | Except.error _ => rawHandle overflowWorld

/-- The scan handle marked on page 2 and then moved to page 3 by
`HeapFile::getRecord` of the RID (3, 0). -/
def scanMovedTo3 : HeapFile SimWorld :=
  match runOps (simEnv simConsts) [Op.getRecord Status.OK { pageNo := 3, slotNo := 0 }]
      (HeapFileScan.markScan scanOnPage2).2 with
  | Except.ok x => x
  | Except.error _ => rawHandle overflowWorld

/-! ## A checker of dirty-flag propagation

The checker rides in the world, next to the collaborators' own state, and
watches the calls that `heapfile.C` makes. It does not alter any answer. -/

/-- What the checker records of a page: the handle holds no pin on it, or the
page is pinned and unchanged since the pin, or it is pinned and its content
was changed through the handle since the pin. -/
inductive PinMark where
  | unpinned
  | clean
  | changed
  deriving DecidableEq, Repr

/-- The checker's state: a mark per page number, and whether some unpin so
far released a changed page with dirty false. -/
structure Monitor where
  mark : Int → PinMark
  violated : Bool

/-- The checker before any call. -/
def Monitor.init : Monitor := { mark := fun _ => PinMark.unpinned, violated := false }

/-- A successful read or allocation pins page `p`. -/
def Monitor.pin (m : Monitor) (p : Int) : Monitor :=
  { m with mark := fun q =>
      if q = p then (if m.mark p = PinMark.changed then PinMark.changed else PinMark.clean)
      else m.mark q }

/-- The content of page `p` is changed; the change counts when the page is
pinned. -/
def Monitor.change (m : Monitor) (p : Int) : Monitor :=
  { m with mark := fun q =>
      if q = p then (if m.mark p = PinMark.unpinned then PinMark.unpinned else PinMark.changed)
      else m.mark q }

/-- Page `p` is unpinned with the given dirty flag. -/
def Monitor.unpin (m : Monitor) (p : Int) (dirty : Bool) : Monitor :=
  { mark := fun q => if q = p then PinMark.unpinned else m.mark q,
    violated := m.violated || (decide (m.mark p = PinMark.changed) && !dirty) }

/-- The collaborators with the checker attached: every answer is that of
`env`; reads and allocations that succeed pin, page initialisation and the
page mutators that succeed change, unpins are checked. -/
def monEnv (env : Env W) : Env (W × Monitor) where
  openFile w name := ((env.openFile w.1 name).1, ((env.openFile w.1 name).2, w.2))
  createFile w name := ((env.createFile w.1 name).1, ((env.createFile w.1 name).2, w.2))
  closeFile w := ((env.closeFile w.1).1, ((env.closeFile w.1).2, w.2))
  destroyFile w name := ((env.destroyFile w.1 name).1, ((env.destroyFile w.1 name).2, w.2))
  readPage w p :=
    ((env.readPage w.1 p).1,
     ((env.readPage w.1 p).2, if (env.readPage w.1 p).1 = Status.OK then w.2.pin p else w.2))
  allocPage w :=
    ((env.allocPage w.1).1, (env.allocPage w.1).2.1,
     ((env.allocPage w.1).2.2,
      if (env.allocPage w.1).1 = Status.OK then w.2.pin (env.allocPage w.1).2.1 else w.2))
  unPinPage w p d := ((env.unPinPage w.1 p d).1, ((env.unPinPage w.1 p d).2, w.2.unpin p d))
  hdrRead w p := env.hdrRead w.1 p
  hdrWrite w p hdr := (env.hdrWrite w.1 p hdr, w.2)
  pageInit w p n := (env.pageInit w.1 p n, w.2.change p)
  pageInsertRecord w p rec :=
    ((env.pageInsertRecord w.1 p rec).1, (env.pageInsertRecord w.1 p rec).2.1,
     ((env.pageInsertRecord w.1 p rec).2.2,
      if (env.pageInsertRecord w.1 p rec).1 = Status.OK then w.2.change p else w.2))
  pageDeleteRecord w p rid :=
    ((env.pageDeleteRecord w.1 p rid).1,
     ((env.pageDeleteRecord w.1 p rid).2,
      if (env.pageDeleteRecord w.1 p rid).1 = Status.OK then w.2.change p else w.2))
  pageGetRecord w p rid := env.pageGetRecord w.1 p rid
  pageNextRecord w p rid := env.pageNextRecord w.1 p rid
  pageGetNextPage w p := env.pageGetNextPage w.1 p
  pageSetNextPage w p n :=
    ((env.pageSetNextPage w.1 p n).1,
     ((env.pageSetNextPage w.1 p n).2,
      if (env.pageSetNextPage w.1 p n).1 = Status.OK then w.2.change p else w.2))
  fsub := env.fsub

/-- A handle over a world with the checker attached, in its initial state. -/
def HeapFile.watched (h : HeapFile W) : HeapFile (W × Monitor) :=
  { world := (h.world, Monitor.init), trace := h.trace, headerPage := h.headerPage,
    headerPageNo := h.headerPageNo, curPage := h.curPage, curPageNo := h.curPageNo,
    curDirtyFlag := h.curDirtyFlag, hdrDirtyFlag := h.hdrDirtyFlag, curRec := h.curRec,
    scan := h.scan, markedPageNo := h.markedPageNo, markedRec := h.markedRec }

/-- The handle with the checker dropped. -/
def HeapFile.unwatched (h : HeapFile (W × Monitor)) : HeapFile W :=
  { world := h.world.1, trace := h.trace, headerPage := h.headerPage,
    headerPageNo := h.headerPageNo, curPage := h.curPage, curPageNo := h.curPageNo,
    curDirtyFlag := h.curDirtyFlag, hdrDirtyFlag := h.hdrDirtyFlag, curRec := h.curRec,
    scan := h.scan, markedPageNo := h.markedPageNo, markedRec := h.markedRec }

/-- The relation the checker's state keeps with the members of the handle:
no violation so far, a pinned page is the current page, and a changed page
goes with a true `curDirtyFlag`. -/
def GoodCore (m : Monitor) (curPage : Option Int) (curPageNo : Int) (flag : Bool) : Prop :=
  m.violated = false ∧
  (∀ p, m.mark p ≠ PinMark.unpinned → curPage = some p ∧ curPageNo = p) ∧
  (∀ p, m.mark p = PinMark.changed → flag = true)

/-- The relation `GoodCore` on a handle. -/
def Good (h : HeapFile (W × Monitor)) : Prop :=
  GoodCore h.world.2 h.curPage h.curPageNo h.curDirtyFlag

/-- The checker sees no pinned page and no violation. -/
def Idle (m : Monitor) : Prop :=
  m.violated = false ∧ ∀ p, m.mark p = PinMark.unpinned

/-! ## Properties of the filter matcher -/

theorem wrap32_range (x : Int) : isInt32 (wrap32 x) := by
  unfold isInt32 wrap32; omega

theorem wrap32_of_range (x : Int) (h : isInt32 x) : wrap32 x = x := by
  unfold isInt32 at h; unfold wrap32; omega

theorem decodeInt32_range (l : List Byte) : isInt32 (decodeInt32 l) := by
  unfold decodeInt32
  split
  · exact wrap32_range _
  · unfold isInt32; omega

theorem decode_encodeInt32 (v : Int) (h : isInt32 v) : decodeInt32 (encodeInt32 v) = v := by
  unfold isInt32 at h
  simp only [decodeInt32, encodeInt32, toUInt32, wrap32, Fin.ofNat, Fin.val_mk]
  omega

theorem readBytes_encodeInt32 (v : Int) : readBytes (encodeInt32 v) 0 4 = Except.ok (encodeInt32 v) := by
  simp [readBytes, encodeInt32]

theorem diff_eq_zero_iff (a v : Int) (ha : isInt32 a) (hv : isInt32 v) :
    Diff.ofInt (wrap32 (a - v)) = Diff.zero ↔ a = v := by
  unfold isInt32 at ha hv
  unfold Diff.ofInt wrap32
  split_ifs <;> simp <;> omega

theorem or_regroup (A B T I F O : Prop) :
    ((A ∨ B) ∨ T ∨ (I ∨ F) ∨ O) ↔ (A ∨ B ∨ T ∨ I ∨ F ∨ O) := by
  simp only [or_assoc]

/-- C6: with a supplied filter, `startScan` answers BADSCANPARM exactly when
the offset is negative, the length is below 1, the datatype is none of
STRING, INTEGER, FLOAT, an INTEGER or FLOAT length differs from 4, or the
comparator is none of the six; then the five stored fields are unchanged,
and otherwise the answer is OK and the five fields are stored as given. -/
theorem startScan_validation (f : ScanFilter) (offset_ length_ : Int) (type_ : Datatype)
    (flt : List Byte) (op_ : Operator) :
    ((f.startScan offset_ length_ type_ (some flt) op_).1 = Status.BADSCANPARM ↔
      (offset_ < 0 ∨ length_ < 1 ∨
       (type_ ≠ Datatype.STRING ∧ type_ ≠ Datatype.INTEGER ∧ type_ ≠ Datatype.FLOAT) ∨
       (type_ = Datatype.INTEGER ∧ length_ ≠ 4) ∨ (type_ = Datatype.FLOAT ∧ length_ ≠ 4) ∨
       (op_ ≠ Operator.LT ∧ op_ ≠ Operator.LTE ∧ op_ ≠ Operator.EQ ∧ op_ ≠ Operator.GTE ∧
        op_ ≠ Operator.GT ∧ op_ ≠ Operator.NE))) ∧
    ((f.startScan offset_ length_ type_ (some flt) op_).1 = Status.BADSCANPARM →
      (f.startScan offset_ length_ type_ (some flt) op_).2 = f) ∧
    ((f.startScan offset_ length_ type_ (some flt) op_).1 ≠ Status.BADSCANPARM →
      (f.startScan offset_ length_ type_ (some flt) op_).1 = Status.OK ∧
      (f.startScan offset_ length_ type_ (some flt) op_).2 =
        { offset := offset_, length := length_, type := type_, filter := some flt,
          op := op_ }) := by
  unfold ScanFilter.startScan
  simp only []
  split_ifs with hbad
  · refine ⟨⟨fun _ => ?_, fun _ => rfl⟩, fun _ => rfl, fun hne => absurd rfl hne⟩
    exact (or_regroup _ _ _ _ _ _).1 hbad
  · refine ⟨⟨fun hst => ?_, fun hb => ?_⟩, fun hst => ?_, fun _ => ⟨rfl, rfl⟩⟩
    · exact absurd hst (by simp)
    · exact absurd ((or_regroup _ _ _ _ _ _).2 hb) hbad
    · exact absurd hst (by simp)

/-- C7: under an INTEGER filter of length 4 holding the 32-bit value `v`, at
any offset `≥ 0`, `matchRec` with EQ returns true exactly when
`offset + 4 ≤` the record length and the integer stored at the offset equals
`v`; with NE and the window inside the record it returns true exactly when
that integer differs from `v`. -/
theorem matchRec_integer_eq_ne (fsub : List Byte → List Byte → Diff) (rec : Record)
    (offset v : Int) (hwf : rec.length = rec.data.length) (hoff : 0 ≤ offset)
    (hv : isInt32 v) :
    (matchRec fsub { offset := offset, length := 4, type := Datatype.INTEGER,
                     filter := some (encodeInt32 v), op := Operator.EQ } rec = Except.ok true ↔
      (offset + 4 ≤ rec.length ∧ decodeInt32 (window rec offset 4) = v)) ∧
    (offset + 4 ≤ rec.length →
      (matchRec fsub { offset := offset, length := 4, type := Datatype.INTEGER,
                       filter := some (encodeInt32 v), op := Operator.NE } rec = Except.ok true ↔
        decodeInt32 (window rec offset 4) ≠ v)) := by
  have hd := diff_eq_zero_iff (decodeInt32 (window rec offset 4)) v (decodeInt32_range _) hv
  have hdec := decode_encodeInt32 v hv
  have hrd := readBytes_encodeInt32 v
  constructor
  · by_cases hin : offset + 4 ≤ rec.length
    · have hg : ¬ (wrap32 (wrap32 (offset + 4) - 1) ≥ rec.length) := by
        unfold wrap32; omega
      have hrb : readBytes rec.data offset 4 = Except.ok (window rec offset 4) := by
        unfold readBytes window
        rw [if_pos]
        · rfl
        · exact ⟨hoff, by omega⟩
      simp only [matchRec, matchDiff, memcpyInt, hg, hrb, hrd, if_true, if_false, Except.map,
        bind, Except.bind, pure, Except.pure, hdec, evalOp]
      simp [hd, hin]
    · have hrb : readBytes rec.data offset 4 = Except.error Fault.outOfBounds := by
        unfold readBytes
        rw [if_neg]
        intro hc
        omega
      by_cases hg : wrap32 (wrap32 (offset + 4) - 1) ≥ rec.length
      · simp [matchRec, hg, hin, pure, Except.pure]
      · simp [matchRec, matchDiff, memcpyInt, hg, hrb, hin, Except.map, bind, Except.bind]
  · intro hin
    have hg : ¬ (wrap32 (wrap32 (offset + 4) - 1) ≥ rec.length) := by
      unfold wrap32; omega
    have hrb : readBytes rec.data offset 4 = Except.ok (window rec offset 4) := by
      unfold readBytes window
      rw [if_pos]
      · rfl
      · exact ⟨hoff, by omega⟩
    simp only [matchRec, matchDiff, memcpyInt, hg, hrb, hrd, if_true, if_false, Except.map,
      bind, Except.bind, pure, Except.pure, hdec, evalOp]
    simp [hd]

/-- C7 at a concrete input: a 6-byte record whose bytes 2..5 hold the integer 5,
matched against the filter value 5 at offset 2. -/
theorem matchRec_integer_eq_ne_witness :
    ((({ data := [7, 7, 5, 0, 0, 0], length := 6 } : Record).length =
        (({ data := [7, 7, 5, 0, 0, 0], length := 6 } : Record).data.length : Int)) ∧
      (0 : Int) ≤ 2 ∧ isInt32 5) ∧
    matchRec (fun _ _ => Diff.nan)
      { offset := 2, length := 4, type := Datatype.INTEGER, filter := some (encodeInt32 5),
        op := Operator.EQ } { data := [7, 7, 5, 0, 0, 0], length := 6 } = Except.ok true :=
  ⟨⟨rfl, by decide, by decide⟩,
   (matchRec_integer_eq_ne (fun _ _ => Diff.nan) { data := [7, 7, 5, 0, 0, 0], length := 6 }
      2 5 rfl (by decide) (by decide)).1.2 ⟨by decide, by decide⟩⟩

theorem diff_ofInt_neg_iff (d : Int) : Diff.ofInt d = Diff.neg ↔ d < 0 := by
  unfold Diff.ofInt
  split_ifs <;> simp <;> omega

theorem diff_ofInt_zero_iff (d : Int) : Diff.ofInt d = Diff.zero ↔ d = 0 := by
  unfold Diff.ofInt
  split_ifs <;> simp <;> omega

theorem diff_ofInt_pos_iff (d : Int) : Diff.ofInt d = Diff.pos ↔ 0 < d := by
  unfold Diff.ofInt
  split_ifs <;> simp <;> omega

/-- Under an INTEGER filter whose window lies inside the record, the four
order comparators are exact whenever the difference of the record's integer
and the filter value fits in 32 bits. -/
theorem matchRec_integer_order_in_range (fsub : List Byte → List Byte → Diff) (rec : Record)
    (offset v : Int) (hwf : rec.length = rec.data.length) (hoff : 0 ≤ offset)
    (hin : offset + 4 ≤ rec.length) (hv : isInt32 v)
    (hfit : isInt32 (decodeInt32 (window rec offset 4) - v)) :
    (matchRec fsub { offset := offset, length := 4, type := Datatype.INTEGER,
                     filter := some (encodeInt32 v), op := Operator.LT } rec =
      Except.ok (decide (decodeInt32 (window rec offset 4) < v))) ∧
    (matchRec fsub { offset := offset, length := 4, type := Datatype.INTEGER,
                     filter := some (encodeInt32 v), op := Operator.LTE } rec =
      Except.ok (decide (decodeInt32 (window rec offset 4) ≤ v))) ∧
    (matchRec fsub { offset := offset, length := 4, type := Datatype.INTEGER,
                     filter := some (encodeInt32 v), op := Operator.GTE } rec =
      Except.ok (decide (decodeInt32 (window rec offset 4) ≥ v))) ∧
    (matchRec fsub { offset := offset, length := 4, type := Datatype.INTEGER,
                     filter := some (encodeInt32 v), op := Operator.GT } rec =
      Except.ok (decide (decodeInt32 (window rec offset 4) > v))) := by
  have hdec := decode_encodeInt32 v hv
  have hrd := readBytes_encodeInt32 v
  have hw := wrap32_of_range _ hfit
  have hg : ¬ (wrap32 (wrap32 (offset + 4) - 1) ≥ rec.length) := by
    unfold wrap32; omega
  have hrb : readBytes rec.data offset 4 = Except.ok (window rec offset 4) := by
    unfold readBytes window
    rw [if_pos]
    · rfl
    · exact ⟨hoff, by omega⟩
  refine ⟨?_, ?_, ?_, ?_⟩ <;>
  · simp only [matchRec, matchDiff, memcpyInt, hg, hrb, hrd, if_true, if_false, Except.map,
      bind, Except.bind, pure, Except.pure, hdec, evalOp, hw, diff_ofInt_neg_iff,
      diff_ofInt_zero_iff, diff_ofInt_pos_iff]
    generalize decodeInt32 (window rec offset 4) = a
    refine congrArg Except.ok (decide_eq_decide.2 ?_)
    omega

/-- C8: evaluation at `a = INT_MIN`, `v = 1` under INTEGER with LT. The
record's integer is below the filter value, yet `matchRec` returns false:
`iattr - ifltr` leaves the 32-bit range and the wrapped difference is positive. -/
theorem matchRec_integer_lt_overflow :
    decodeInt32 (window { data := encodeInt32 (-2147483648), length := 4 } 0 4) = -2147483648 ∧
    decodeInt32 (encodeInt32 1) = 1 ∧
    matchRec (fun _ _ => Diff.nan)
      { offset := 0, length := 4, type := Datatype.INTEGER, filter := some (encodeInt32 1),
        op := Operator.LT } { data := encodeInt32 (-2147483648), length := 4 }
      = Except.ok false ∧
    matchRec (fun _ _ => Diff.nan)
      { offset := 0, length := 4, type := Datatype.INTEGER, filter := some (encodeInt32 1),
        op := Operator.GT } { data := encodeInt32 (-2147483648), length := 4 }
      = Except.ok true := by
  refine ⟨by decide, by decide, by decide, by decide⟩

theorem lexCmp_eq_zero_iff (a b : List Byte) : lexCmp a b = 0 ↔ a = b := by
  induction a generalizing b with
  | nil => cases b <;> simp [lexCmp]
  | cons x xs ih =>
      cases b with
      | nil => simp [lexCmp]
      | cons y ys =>
          simp only [lexCmp, List.cons.injEq]
          split_ifs with h1 h2
          · have hne : x ≠ y := fun h => by subst h; exact absurd h1 (lt_irrefl _)
            simp [hne]
          · have hne : x ≠ y := fun h => by subst h; exact absurd h2 (lt_irrefl _)
            simp [hne]
          · have hxy : x = y := le_antisymm (not_lt.1 h2) (not_lt.1 h1)
            simp [hxy, ih]

theorem diff_ofInt_neg (d : Int) (h : d < 0) : Diff.ofInt d = Diff.neg := by
  simp [Diff.ofInt, h]

theorem diff_ofInt_pos (d : Int) (h : 0 < d) : Diff.ofInt d = Diff.pos := by
  unfold Diff.ofInt
  rw [if_neg (by omega), if_neg (by omega)]

theorem cstr_cons_zero (l : List Byte) : cstr ((0 : Byte) :: l) = [] := by
  simp [cstr]

theorem cstr_cons_ne (x : Byte) (l : List Byte) (hx : x ≠ 0) : cstr (x :: l) = x :: cstr l := by
  simp [cstr, List.takeWhile_cons, hx]

theorem byte_pos (x : Byte) (hx : x ≠ 0) : 0 < x.val := by
  rcases Nat.eq_zero_or_pos x.val with h | h
  · exact absurd (Fin.ext h) hx
  · exact h

/-- The routine `strncmp` on two buffers of at least `n` bytes returns a
value whose sign is that of the lexicographic comparison of the two C
strings held by the first `n` bytes. -/
theorem strncmp_sign (n : Nat) (a b : List Byte) (ha : n ≤ a.length) (hb : n ≤ b.length) :
    ∃ d, strncmp a b n = Except.ok d ∧
      Diff.ofInt d = Diff.ofInt (lexCmp (cstr (a.take n)) (cstr (b.take n))) := by
  induction n generalizing a b with
  | zero => exact ⟨0, by simp [strncmp], by simp [cstr, lexCmp]⟩
  | succ n ih =>
      match a, b, ha, hb with
      | x :: xs, y :: ys, ha, hb =>
          simp only [List.length_cons, Nat.add_le_add_iff_right] at ha hb
          obtain ⟨d, hd, hs⟩ := ih xs ys ha hb
          simp only [List.take_succ_cons]
          by_cases hxy : x = y
          · subst hxy
            by_cases hx0 : x = 0
            · subst hx0
              exact ⟨0, by simp [strncmp], by simp [cstr_cons_zero, lexCmp]⟩
            · refine ⟨d, by simp [strncmp, hx0, hd], ?_⟩
              rw [cstr_cons_ne _ _ hx0, cstr_cons_ne _ _ hx0, hs]
              simp [lexCmp]
          · refine ⟨(x.val : Int) - y.val, by simp [strncmp, hxy], ?_⟩
            by_cases hx0 : x = 0
            · subst hx0
              have hy0 : y ≠ 0 := fun h => hxy h.symm
              have hyp := byte_pos y hy0
              rw [cstr_cons_zero, cstr_cons_ne _ _ hy0]
              simp only [lexCmp]
              rw [diff_ofInt_neg _ (by simp; omega), diff_ofInt_neg _ (by omega)]
            · by_cases hy0 : y = 0
              · subst hy0
                have hxp := byte_pos x hx0
                rw [cstr_cons_zero, cstr_cons_ne _ _ hx0]
                simp only [lexCmp]
                rw [diff_ofInt_pos _ (by simp; omega), diff_ofInt_pos _ (by omega)]
              · rw [cstr_cons_ne _ _ hx0, cstr_cons_ne _ _ hy0]
                simp only [lexCmp]
                by_cases hlt : x < y
                · have hv : x.val < y.val := hlt
                  rw [if_pos hlt, diff_ofInt_neg _ (by omega), diff_ofInt_neg _ (by omega)]
                · have hv : ¬ x.val < y.val := hlt
                  have hne : x.val ≠ y.val := fun h => hxy (Fin.ext h)
                  have hgt : y < x := by
                    show y.val < x.val
                    omega
                  have hv2 : y.val < x.val := hgt
                  rw [if_neg hlt, if_pos hgt, diff_ofInt_pos _ (by omega),
                    diff_ofInt_pos _ (by omega)]

/-- C9 as stated fails: over the three bytes `a, 0, b` of the record and
`a, 0, c` of the filter, EQ returns true although the third bytes differ. -/
theorem matchRec_string_eq_stops_at_zero :
    matchRec (fun _ _ => Diff.nan)
      { offset := 0, length := 3, type := Datatype.STRING, filter := some [97, 0, 99],
        op := Operator.EQ } { data := [97, 0, 98], length := 3 } = Except.ok true ∧
    window { data := [97, 0, 98], length := 3 } 0 3 ≠ List.take 3 [97, 0, 99] := by
  refine ⟨by decide, by decide⟩

/-- C9 amended: for a STRING filter of length `n` whose window lies inside the
record, `matchRec` compares the `n` bytes of the record at the offset with
the first `n` bytes of the filter as C strings (each cut at its first zero
byte), byte by byte in lexicographic order, and maps the sign through the
comparator; with EQ it returns true exactly when the two cut strings are
equal. -/
theorem matchRec_string (fsub : List Byte → List Byte → Diff) (rec : Record)
    (offset n : Int) (flt : List Byte) (op : Operator)
    (hwf : rec.length = rec.data.length) (hoff : 0 ≤ offset) (hn : 1 ≤ n)
    (hn32 : n ≤ 2147483647) (hwin : offset + n ≤ rec.length) (hflt : n ≤ flt.length) :
    matchRec fsub { offset := offset, length := n, type := Datatype.STRING,
                    filter := some flt, op := op } rec =
      Except.ok (evalOp op (Diff.ofInt
        (lexCmp (cstr (window rec offset n)) (cstr (flt.take n.toNat))))) ∧
    (matchRec fsub { offset := offset, length := n, type := Datatype.STRING,
                     filter := some flt, op := Operator.EQ } rec = Except.ok true ↔
      cstr (window rec offset n) = cstr (flt.take n.toNat)) := by
  have hg : ¬ (wrap32 (wrap32 (offset + n) - 1) ≥ rec.length) := by
    unfold wrap32; omega
  have hoff2 : 0 ≤ offset ∧ offset.toNat ≤ rec.data.length := ⟨hoff, by omega⟩
  have hnn : (n % 18446744073709551616).toNat = n.toNat := by
    congr 1; omega
  have hla : n.toNat ≤ (rec.data.drop offset.toNat).length := by
    rw [List.length_drop]; omega
  have hlb : n.toNat ≤ flt.length := by omega
  obtain ⟨d, hd, hs⟩ := strncmp_sign n.toNat _ _ hla hlb
  have key : ∀ o : Operator,
      matchRec fsub { offset := offset, length := n, type := Datatype.STRING,
                      filter := some flt, op := o } rec =
        Except.ok (evalOp o (Diff.ofInt
          (lexCmp (cstr (window rec offset n)) (cstr (flt.take n.toNat))))) := by
    intro o
    simp only [matchRec, matchDiff, hg, hoff2, hnn, hd, if_false, if_true, and_self,
      Except.map, bind, Except.bind, pure, Except.pure, hs, window]
  refine ⟨key op, ?_⟩
  rw [key Operator.EQ]
  simp [evalOp, diff_ofInt_zero_iff, lexCmp_eq_zero_iff]

/-- C9 amended, at a concrete input: the window `b, c` of the record
`a, b, c` against the filter `b, d` under LT. -/
theorem matchRec_string_witness :
    ((({ data := [97, 98, 99], length := 3 } : Record).length =
        (({ data := [97, 98, 99], length := 3 } : Record).data.length : Int)) ∧
      (0 : Int) ≤ 1 ∧ (1 : Int) ≤ 2 ∧ (2 : Int) ≤ 2147483647 ∧
      (1 : Int) + 2 ≤ ({ data := [97, 98, 99], length := 3 } : Record).length ∧
      (2 : Int) ≤ (([98, 100] : List Byte).length : Int)) ∧
    matchRec (fun _ _ => Diff.nan)
      { offset := 1, length := 2, type := Datatype.STRING, filter := some [98, 100],
        op := Operator.LT } { data := [97, 98, 99], length := 3 } =
      Except.ok (evalOp Operator.LT (Diff.ofInt
        (lexCmp (cstr (window { data := [97, 98, 99], length := 3 } 1 2))
          (cstr (List.take (2 : Int).toNat [98, 100]))))) :=
  ⟨⟨rfl, by decide, by decide, by decide, by decide, by decide⟩,
   (matchRec_string (fun _ _ => Diff.nan) { data := [97, 98, 99], length := 3 } 1 2 [98, 100]
      Operator.LT rfl (by decide) (by decide) (by decide) (by decide) (by decide)).1⟩

/-- C10: evaluation at offset `2147483647`, length `2`, a STRING filter that
`startScan` accepts, against a 4-byte record. The window lies beyond the
record, yet the guard does not fire: `offset + length - 1` leaves the 32-bit
range and wraps below zero, and the comparison then reads outside the record. -/
theorem matchRec_guard_overflow :
    (ScanFilter.startScan
        { offset := 0, length := 0, type := Datatype.STRING, filter := none, op := Operator.EQ }
        2147483647 2 Datatype.STRING (some [97, 98]) Operator.EQ) =
      (Status.OK, { offset := 2147483647, length := 2, type := Datatype.STRING,
                    filter := some [97, 98], op := Operator.EQ }) ∧
    (2147483647 : Int) + 2 > ({ data := [97, 98, 99, 100], length := 4 } : Record).length ∧
    wrap32 (wrap32 (2147483647 + 2) - 1) = -2147483648 ∧
    matchRec (fun _ _ => Diff.nan)
      { offset := 2147483647, length := 2, type := Datatype.STRING, filter := some [97, 98],
        op := Operator.EQ } { data := [97, 98, 99, 100], length := 4 }
      = Except.error Fault.outOfBounds := by
  refine ⟨by decide, by decide, by decide, by decide⟩

/-- For a window that fits the 32-bit range the guard of `matchRec` is exact:
a window that ends beyond the record is rejected, and one that ends at or
before the record's end goes on to the comparison. -/
theorem matchRec_guard_in_range (fsub : List Byte → List Byte → Diff) (f : ScanFilter)
    (flt : List Byte) (rec : Record) (hflt : f.filter = some flt) (hoff : 0 ≤ f.offset)
    (hlen : 1 ≤ f.length) (hfit : f.offset + f.length - 1 ≤ 2147483647) :
    (f.offset + f.length > rec.length → matchRec fsub f rec = Except.ok false) ∧
    (f.offset + f.length ≤ rec.length →
      matchRec fsub f rec = (matchDiff fsub f flt rec).map (evalOp f.op)) := by
  have hw : wrap32 (wrap32 (f.offset + f.length) - 1) = f.offset + f.length - 1 := by
    unfold wrap32; omega
  constructor
  · intro h
    have hg : f.offset + f.length - 1 ≥ rec.length := by omega
    simp [matchRec, hflt, hw, hg, pure, Except.pure]
  · intro h
    have hg : ¬ (f.offset + f.length - 1 ≥ rec.length) := by omega
    simp only [matchRec, hflt, hw, hg, if_false]
    cases matchDiff fsub f flt rec <;> rfl

/-! ## Properties of the insert engine -/

/-- C5: a record longer than `PAGESIZE - DPFIXED` makes `insertRecord` return
INVALIDRECLEN with the handle, its world and its trace of buffer-cache calls
all unchanged; for a record (a buffer with its length) of at most
`PAGESIZE - DPFIXED` bytes the length check does not fire and the call
continues with the insertion. -/
theorem insertRecord_length_check (env : Env W) (c : Consts) (h : HeapFile W) (rec : Record)
    (outRid : RID) (hcap0 : 0 ≤ c.PAGESIZE - c.DPFIXED)
    (hcap : c.PAGESIZE - c.DPFIXED < 4294967296) (hlen : isInt32 rec.length) :
    (c.PAGESIZE - c.DPFIXED < rec.length →
      InsertFileScan.insertRecord env c h rec outRid =
        Except.ok (Status.INVALIDRECLEN, outRid, h)) ∧
    (rec.length = rec.data.length → rec.length ≤ c.PAGESIZE - c.DPFIXED →
      recTooLarge c rec = false ∧
      InsertFileScan.insertRecord env c h rec outRid = insertAfterCheck env h rec outRid) := by
  unfold isInt32 at hlen
  constructor
  · intro hbig
    have ht : recTooLarge c rec = true := by
      unfold recTooLarge toUInt32
      simp only [decide_eq_true_eq]
      omega
    simp [InsertFileScan.insertRecord, ht]
  · intro h0 hsmall
    have ht : recTooLarge c rec = false := by
      unfold recTooLarge toUInt32
      simp only [decide_eq_false_iff_not]
      omega
    exact ⟨ht, by simp [InsertFileScan.insertRecord, ht]⟩

/-- C3: when the insertion on the current page reports NOSPACE and the page
allocation, the linking and the retry succeed, `insertRecord` returns OK with
the RID assigned by the new page; it has issued exactly one `allocPage`
(followed by the unpin of the former page), `pageCnt` and `recCnt` have
each grown by 1 and `lastPage` is the new page number. -/
theorem insertRecord_overflow (env : Env W) (c : Consts) (h hp : HeapFile W) (rec : Record)
    (outRid rid0 rid : RID) (p newPageNo : Int) (w1 w2 w4 w5 : W)
    (hsmall : recTooLarge c rec = false)
    (hpin : pinForInsert env h = (Status.OK, hp))
    (hcur : hp.curPage = some p)
    (hns : env.pageInsertRecord hp.world p rec = (Status.NOSPACE, rid0, w1))
    (halloc : env.allocPage w1 = (Status.OK, newPageNo, w2))
    (hlink : env.pageSetNextPage
        (env.pageInit (env.unPinPage w2 hp.curPageNo hp.curDirtyFlag).2 newPageNo newPageNo)
        newPageNo hp.headerPage.lastPage = (Status.OK, w4))
    (hretry : env.pageInsertRecord w4 newPageNo rec = (Status.OK, rid, w5))
    (hpc : isInt32 h.headerPage.pageCnt ∧ h.headerPage.pageCnt < 2147483647)
    (hrc : isInt32 h.headerPage.recCnt ∧ h.headerPage.recCnt < 2147483647) :
    InsertFileScan.insertRecord env c h rec outRid =
      Except.ok (Status.OK, rid,
        { hp with
            world := w5,
            trace := hp.trace ++ [BufCall.allocPage,
                                  BufCall.unPinPage hp.curPageNo hp.curDirtyFlag],
            headerPage := { h.headerPage with
                              lastPage := newPageNo,
                              pageCnt := h.headerPage.pageCnt + 1,
                              recCnt := h.headerPage.recCnt + 1 },
            curPage := some newPageNo, curPageNo := newPageNo,
            curDirtyFlag := true, hdrDirtyFlag := true }) ∧
    (hp.trace = h.trace ∨ hp.trace = h.trace ++ [BufCall.readPage h.headerPage.lastPage]) := by
  have hhdr : hp.headerPage = h.headerPage ∧
      (hp.trace = h.trace ∨ hp.trace = h.trace ++ [BufCall.readPage h.headerPage.lastPage]) := by
    unfold pinForInsert at hpin
    split_ifs at hpin
    · have h2 := congrArg Prod.snd hpin
      simp only [bufReadPage] at h2
      subst h2
      exact ⟨rfl, Or.inr rfl⟩
    · have h2 := congrArg Prod.snd hpin
      simp only at h2
      subst h2
      exact ⟨rfl, Or.inl rfl⟩
  have h1 : wrap32 (h.headerPage.pageCnt + 1) = h.headerPage.pageCnt + 1 := by
    apply wrap32_of_range
    unfold isInt32 at *
    omega
  have h2 : wrap32 (h.headerPage.recCnt + 1) = h.headerPage.recCnt + 1 := by
    apply wrap32_of_range
    unfold isInt32 at *
    omega
  refine ⟨?_, hhdr.2⟩
  rw [hhdr.1] at hlink
  simp only [InsertFileScan.insertRecord, hsmall, insertAfterCheck, hpin, insertOnPage, hcur,
    hns, bufAllocPage, halloc, bufUnPinPage, hhdr.1, h1, h2]
  simp [hlink, hretry]

/-! ## Properties of the scan engine -/

/-- The constructor leaves no data page pinned: `curPage` is null after a
successful open. -/
theorem open_curPage_none (env : Env W) (init : HeapFile W) (w : W) (name : String)
    (hok : (HeapFileScan.open env init w name).1 = Status.OK) :
    (HeapFileScan.open env init w name).2.curPage = none := by
  unfold HeapFileScan.open HeapFile.open at *
  simp only at hok ⊢
  split_ifs at hok ⊢ with h1 h2
  · exact absurd hok h2
  · rfl
  · exact absurd hok h1

/-- With a null `curPage`, `scanNext` dereferences the null pointer in its
first statement. -/
theorem scanNext_null (env : Env W) (fuel : Nat) (tmpRid outRid : RID) (h : HeapFile W)
    (hnull : h.curPage = none) :
    HeapFileScan.scanNext env (fuel + 1) tmpRid outRid h = Except.error Fault.nullDeref := by
  simp [HeapFileScan.scanNext, hnull]

/-- Whatever `scanNext` returns, the caller's RID variable holds the value
it had on entry: no statement assigns it. -/
theorem scanNext_outRid_unchanged (env : Env W) (fuel : Nat) (tmpRid outRid : RID)
    (h : HeapFile W) (st : Status) (r : RID) (h' : HeapFile W)
    (hres : HeapFileScan.scanNext env fuel tmpRid outRid h = Except.ok (st, r, h')) :
    r = outRid := by
  induction fuel generalizing h with
  | zero => simp [HeapFileScan.scanNext] at hres
  | succ n ih =>
      unfold HeapFileScan.scanNext at hres
      split at hres
      · simp at hres
      · simp only at hres
        split_ifs at hres
        · simp only [Except.ok.injEq, Prod.mk.injEq] at hres; exact hres.2.1.symm
        · simp only [Except.ok.injEq, Prod.mk.injEq] at hres; exact hres.2.1.symm
        · exact ih _ hres
        · simp only [Except.ok.injEq, Prod.mk.injEq] at hres; exact hres.2.1.symm
        · simp only [Except.ok.injEq, Prod.mk.injEq] at hres; exact hres.2.1.symm
        · split at hres
          · simp at hres
          · simp only [Except.ok.injEq, Prod.mk.injEq] at hres; exact hres.2.1.symm
          · exact ih _ hres

/-- C1: evaluation on a file that holds one record. A scan handle that has
just been opened, with no filter, has a null `curPage`, and its first
`scanNext` dereferences it: no record identifier and no end-of-file status is
returned. -/
theorem scanNext_fresh_scan_faults :
    oneRecordWorld.hdr.recCnt = 1 ∧
    (HeapFileScan.open (simEnv simConsts) (rawHandle oneRecordWorld) oneRecordWorld "t1").1 =
      Status.OK ∧
    freshScan.scan.filter = none ∧
    freshScan.curPage = none ∧
    ∀ (fuel : Nat) (tmpRid outRid : RID),
      HeapFileScan.scanNext (simEnv simConsts) (fuel + 1) tmpRid outRid freshScan =
        Except.error Fault.nullDeref := by
  refine ⟨by decide, by decide, by decide, by decide, fun fuel tmpRid outRid => ?_⟩
  exact scanNext_null _ fuel tmpRid outRid freshScan (by decide)

/-- Whatever the page layer answers, `deleteRecord` lowers the header's
record count by one and returns the page layer's status. -/
theorem deleteRecord_always_decrements (env : Env W) (h : HeapFile W) (p : Int)
    (hcur : h.curPage = some p) :
    ∃ h', HeapFileScan.deleteRecord env h =
        Except.ok ((env.pageDeleteRecord h.world p h.curRec).1, h') ∧
      HeapFile.getRecCnt h' = wrap32 (HeapFile.getRecCnt h - 1) := by
  refine ⟨{ h with world := (env.pageDeleteRecord h.world p h.curRec).2, curDirtyFlag := true,
                     headerPage := { h.headerPage with
                                       recCnt := wrap32 (h.headerPage.recCnt - 1) },
                     hdrDirtyFlag := true }, ?_, rfl⟩
  simp only [HeapFileScan.deleteRecord, hcur]

/-- C2: evaluation on a new file, which holds no record and has count 0. The
scan handle has page 2 pinned. Whatever record `curRec` names,
`deleteRecord` returns a failure status, and the count afterwards is -1. -/
theorem deleteRecord_failure_changes_count :
    HeapFile.getRecCnt emptyScan = 0 ∧
    ∀ r : RID, ∃ h' : HeapFile SimWorld,
      HeapFileScan.deleteRecord (simEnv simConsts) (emptyPositioned r) =
        Except.ok (Status.other 5, h') ∧
      HeapFile.getRecCnt (emptyPositioned r) = 0 ∧
      HeapFile.getRecCnt h' = -1 := by
  refine ⟨by decide, fun r => ?_⟩
  have hcur : (emptyPositioned r).curPage = some 2 := rfl
  have hrec : (emptyPositioned r).curRec = r := rfl
  have hw : (emptyPositioned r).world = (emptyPositioned RID.init).world := rfl
  have hpg : (emptyPositioned RID.init).world.getPage 2 =
      some { pageNo := 2, nextPage := -1, slots := [] } := by decide
  have hdel : ((simEnv simConsts).pageDeleteRecord (emptyPositioned r).world 2 r).1 =
      Status.other 5 := by
    rw [hw]
    simp only [simEnv, hpg]
    split_ifs <;> simp
  obtain ⟨h', h1, h2⟩ := deleteRecord_always_decrements (simEnv simConsts) (emptyPositioned r) 2 hcur
  rw [hrec, hdel] at h1
  refine ⟨h', h1, rfl, ?_⟩
  rw [h2]
  have h0 : HeapFile.getRecCnt (emptyPositioned r) = 0 := rfl
  rw [h0]
  decide

/-- C4: evaluation on a new file filled until overflow with two records of
600 bytes. Afterwards `firstPage` is 2 and `lastPage` is 3, page 2 has no
forward link and the forward link of page 3 is page 2: the new page was
linked to the former last page, not the former last page to the new one. -/
theorem overflow_links_new_page_backwards :
    (InsertFileScan.insertRecord (simEnv simConsts) simConsts freshInsert (mkRecord 600 65)
        RID.init).map (fun r => (r.1, r.2.1)) =
      Except.ok (Status.OK, { pageNo := 2, slotNo := 0 }) ∧
    (InsertFileScan.insertRecord (simEnv simConsts) simConsts (afterOneInsert 600)
        (mkRecord 600 66) RID.init).map (fun r => (r.1, r.2.1)) =
      Except.ok (Status.OK, { pageNo := 3, slotNo := 0 }) ∧
    (afterTwoInserts 600).headerPage.firstPage = 2 ∧
    (afterTwoInserts 600).headerPage.lastPage = 3 ∧
    (simEnv simConsts).pageGetNextPage (afterTwoInserts 600).world 2 = (Status.FILEEOF, -1) ∧
    (simEnv simConsts).pageGetNextPage (afterTwoInserts 600).world 3 = (Status.OK, 2) := by
  refine ⟨by decide, by decide, by decide, by decide, by decide, by decide⟩

/-- C5 at a concrete input: a record of 2000 bytes against pages of 1024
bytes is refused and the handle is returned as it was. -/
theorem insertRecord_length_check_witness :
    ((0 : Int) ≤ simConsts.PAGESIZE - simConsts.DPFIXED ∧
      simConsts.PAGESIZE - simConsts.DPFIXED < 4294967296 ∧
      isInt32 (mkRecord 2000 65).length ∧
      simConsts.PAGESIZE - simConsts.DPFIXED < (mkRecord 2000 65).length) ∧
    InsertFileScan.insertRecord (simEnv simConsts) simConsts freshInsert (mkRecord 2000 65)
        RID.init = Except.ok (Status.INVALIDRECLEN, RID.init, freshInsert) :=
  ⟨⟨by decide, by decide, by decide, by decide⟩,
   (insertRecord_length_check (simEnv simConsts) simConsts freshInsert (mkRecord 2000 65)
      RID.init (by decide) (by decide) (by decide)).1 (by decide)⟩

/-- C3 at a concrete input: the second 600-byte record does not fit on page 2;
page 3 is allocated and receives it. -/
theorem insertRecord_overflow_witness :
    ∃ hfin : HeapFile SimWorld,
      InsertFileScan.insertRecord (simEnv simConsts) simConsts (afterOneInsert 600)
          (mkRecord 600 66) RID.init =
        Except.ok (Status.OK, { pageNo := 3, slotNo := 0 }, hfin) ∧
      hfin.trace = (afterOneInsert 600).trace ++ [BufCall.allocPage, BufCall.unPinPage 2 true] ∧
      hfin.headerPage.pageCnt = 2 ∧ hfin.headerPage.lastPage = 3 ∧
      hfin.headerPage.recCnt = 2 :=
  ⟨_,
   (insertRecord_overflow (simEnv simConsts) simConsts (afterOneInsert 600)
      (afterOneInsert 600) (mkRecord 600 66) RID.init RID.init { pageNo := 3, slotNo := 0 } 2 3
      (afterOneInsert 600).world
      ((simEnv simConsts).allocPage (afterOneInsert 600).world).2.2
      ((simEnv simConsts).pageSetNextPage
        ((simEnv simConsts).pageInit
          ((simEnv simConsts).unPinPage
            ((simEnv simConsts).allocPage (afterOneInsert 600).world).2.2 2 true).2 3 3) 3 2).2
      ((simEnv simConsts).pageInsertRecord
        ((simEnv simConsts).pageSetNextPage
          ((simEnv simConsts).pageInit
            ((simEnv simConsts).unPinPage
              ((simEnv simConsts).allocPage (afterOneInsert 600).world).2.2 2 true).2 3 3) 3 2).2
        3 (mkRecord 600 66)).2.2
      (by decide) rfl (by decide) rfl rfl rfl rfl (by decide) (by decide)).1,
   by decide, by decide, by decide, by decide⟩

/-! ## Properties of random access and scan control -/

/-- C11: `startScan` with a null filter returns OK whatever the other
arguments are, and `matchRec` afterwards returns true for every record,
whatever filter the handle held before. -/
theorem startScan_null_filter_matches_all (fsub : List Byte → List Byte → Diff)
    (f : ScanFilter) (offset_ length_ : Int) (type_ : Datatype) (op_ : Operator)
    (rec : Record) :
    (f.startScan offset_ length_ type_ none op_).1 = Status.OK ∧
    (f.startScan offset_ length_ type_ none op_).2.filter = none ∧
    matchRec fsub (f.startScan offset_ length_ type_ none op_).2 rec = Except.ok true := by
  refine ⟨rfl, rfl, rfl⟩

/-- C12: evaluation on the new, empty file. `HeapFile::getRecord` of the RID
(2, 0) reads page 2 and returns OK although the page layer finds no record
there; once page 2 is the current page, the same call returns whatever value
its unwritten local `status` holds. -/
theorem getRecord_ignores_fetch_failure :
    ((simEnv simConsts).pageGetRecord (emptyPositioned RID.init).world 2
        { pageNo := 2, slotNo := 0 }).1 = Status.other 5 ∧
    (∀ status0 : Status,
      (HeapFile.getRecord (simEnv simConsts) status0 emptyScan
          { pageNo := 2, slotNo := 0 }).map (fun r => (r.1, r.2.1)) =
        Except.ok (Status.OK, none)) ∧
    (∀ status0 : Status,
      (HeapFile.getRecord (simEnv simConsts) status0 (emptyPositioned RID.init)
          { pageNo := 2, slotNo := 0 }).map (fun r => (r.1, r.2.1)) =
        Except.ok (status0, none)) := by
  refine ⟨by decide, fun status0 => rfl, fun status0 => rfl⟩

/-- C13: `HeapFile::getRecord` of a RID on another page, when the page read
succeeds, issues the unpin of the current page with `curDirtyFlag` (only if
`curPage` is non-null) and then the read of `rid.pageNo`, and ends with
`curPageNo = rid.pageNo` and `curDirtyFlag = false`; for a RID on the current
page it issues no buffer-cache call and returns the handle as it was (with a
null `curPage` it stops at the null pointer). The header and `hdrDirtyFlag`
are unchanged in both cases. -/
theorem getRecord_frame (env : Env W) (status0 : Status) (h : HeapFile W) (rid : RID) :
    (rid.pageNo ≠ h.curPageNo →
      (env.readPage
        (if h.curPage.isSome then (env.unPinPage h.world h.curPageNo h.curDirtyFlag).2
         else h.world) rid.pageNo).1 = Status.OK →
      ∃ (rec : Option Record) (h' : HeapFile W),
        HeapFile.getRecord env status0 h rid = Except.ok (Status.OK, rec, h') ∧
        h'.trace = h.trace ++
          (if h.curPage.isSome then [BufCall.unPinPage h.curPageNo h.curDirtyFlag] else []) ++
          [BufCall.readPage rid.pageNo] ∧
        h'.curPage = some rid.pageNo ∧ h'.curPageNo = rid.pageNo ∧ h'.curDirtyFlag = false ∧
        h'.headerPage = h.headerPage ∧ h'.hdrDirtyFlag = h.hdrDirtyFlag) ∧
    (rid.pageNo = h.curPageNo →
      (∀ p : Int, h.curPage = some p →
        ∃ rec : Option Record,
          HeapFile.getRecord env status0 h rid = Except.ok (status0, rec, h)) ∧
      (h.curPage = none →
        HeapFile.getRecord env status0 h rid = Except.error Fault.nullDeref)) := by
  constructor
  · intro hne hread
    cases hcp : h.curPage with
    | none =>
        simp only [hcp, Option.isSome_none, Bool.false_eq_true, if_false] at hread
        simp only [HeapFile.getRecord, hne, ne_eq, not_false_eq_true, if_true, hcp,
          Option.isSome_none, Bool.false_eq_true, if_false, bufReadPage, hread,
          not_true_eq_false]
        exact ⟨_, _, rfl, by simp, rfl, rfl, rfl, rfl, rfl⟩
    | some a =>
        simp only [hcp, Option.isSome_some, if_true] at hread
        simp only [HeapFile.getRecord, hne, ne_eq, not_false_eq_true, if_true, hcp,
          Option.isSome_some, bufReadPage, bufUnPinPage, hread, not_true_eq_false, if_false]
        exact ⟨_, _, rfl, by simp, rfl, rfl, rfl, rfl, rfl⟩
  · intro heq
    constructor
    · intro p hp
      simp only [HeapFile.getRecord, heq, ne_eq, not_true_eq_false, if_false, hp]
      exact ⟨_, rfl⟩
    · intro hp
      simp only [HeapFile.getRecord, heq, ne_eq, not_true_eq_false, if_false, hp]

/-- C13 at a concrete input: on the new file a handle with no current page
fetches the RID (2, 0); page 2 is read and becomes the current page. -/
theorem getRecord_frame_witness :
    ∃ (rec : Option Record) (h' : HeapFile SimWorld),
      HeapFile.getRecord (simEnv simConsts) Status.OK emptyScan { pageNo := 2, slotNo := 0 } =
        Except.ok (Status.OK, rec, h') ∧
      h'.trace = emptyScan.trace ++
        (if emptyScan.curPage.isSome then
          [BufCall.unPinPage emptyScan.curPageNo emptyScan.curDirtyFlag] else []) ++
        [BufCall.readPage 2] ∧
      h'.curPage = some 2 ∧ h'.curPageNo = 2 ∧ h'.curDirtyFlag = false ∧
      h'.headerPage = emptyScan.headerPage ∧ h'.hdrDirtyFlag = emptyScan.hdrDirtyFlag :=
  (getRecord_frame (simEnv simConsts) Status.OK emptyScan { pageNo := 2, slotNo := 0 }).1
    (by decide) (by decide)

/-- Whatever `scanNext` returns, `curRec` holds the value it had on entry or
the value of `RID()`: no statement assigns it the record found. -/
theorem scanNext_curRec_not_assigned (env : Env W) (fuel : Nat) (tmpRid outRid : RID)
    (h : HeapFile W) (st : Status) (r : RID) (h' : HeapFile W)
    (hres : HeapFileScan.scanNext env fuel tmpRid outRid h = Except.ok (st, r, h')) :
    h'.curRec = h.curRec ∨ h'.curRec = RID.init := by
  induction fuel generalizing h with
  | zero => simp [HeapFileScan.scanNext] at hres
  | succ n ih =>
      unfold HeapFileScan.scanNext at hres
      split at hres
      · simp at hres
      · simp only at hres
        split_ifs at hres
        · simp only [Except.ok.injEq, Prod.mk.injEq] at hres
          exact Or.inl (by rw [← hres.2.2])
        · simp only [Except.ok.injEq, Prod.mk.injEq] at hres
          exact Or.inl (by rw [← hres.2.2]; rfl)
        · rcases ih _ hres with h1 | h1
          · exact Or.inr h1
          · exact Or.inr h1
        · simp only [Except.ok.injEq, Prod.mk.injEq] at hres
          exact Or.inl (by rw [← hres.2.2])
        · simp only [Except.ok.injEq, Prod.mk.injEq] at hres
          exact Or.inl (by rw [← hres.2.2])
        · split at hres
          · simp at hres
          · simp only [Except.ok.injEq, Prod.mk.injEq] at hres
            exact Or.inl (by rw [← hres.2.2])
          · exact ih _ hres

/-- C14: evaluation on the file with records at (2, 0) and (2, 1), page 2
pinned. `scanNext`, entered with the caller's variable at (2, 1), returns OK
and that same identifier, and leaves the handle as it was, `curRec` still at
its old value (0, 0); the `HeapFileScan::getRecord` that follows returns the
record in slot 0, not the record stored at the returned identifier. -/
theorem scanNext_does_not_position_cursor :
    HeapFileScan.scanNext (simEnv simConsts) 1 RID.init { pageNo := 2, slotNo := 1 } pinnedScan =
      Except.ok (Status.OK, { pageNo := 2, slotNo := 1 }, pinnedScan) ∧
    pinnedScan.curRec = { pageNo := 0, slotNo := 0 } ∧
    (simEnv simConsts).pageGetRecord pinnedScan.world 2 { pageNo := 2, slotNo := 1 } =
      (Status.OK, mkRecord 10 66) ∧
    HeapFileScan.getRecord (simEnv simConsts) pinnedScan =
      Except.ok (Status.OK, some (mkRecord 10 65)) := by
  refine ⟨rfl, by decide, by decide, by decide⟩

/-- C15 as stated fails: on a scan handle that has just been opened,
`markScan` followed by `resetScan` returns OK with no buffer-cache call, and
the handle has no pinned data page afterwards. -/
theorem resetScan_ok_without_pinned_page :
    (HeapFileScan.resetScan (simEnv simConsts) (HeapFileScan.markScan emptyScan).2).1 =
      Status.OK ∧
    (HeapFileScan.resetScan (simEnv simConsts) (HeapFileScan.markScan emptyScan).2).2.curPage =
      none ∧
    (HeapFileScan.resetScan (simEnv simConsts)
      (HeapFileScan.markScan emptyScan).2).2.world.pins = [1] := by
  refine ⟨by decide, by decide, by decide⟩

/-- C16 as stated fails: on a scan handle that has just been opened,
`markDirty` followed by `endScan` leaves `curDirtyFlag` true. -/
theorem endScan_keeps_flag_without_page :
    (HeapFileScan.markDirty emptyScan).2.curPage = none ∧
    (HeapFileScan.endScan (simEnv simConsts) (HeapFileScan.markDirty emptyScan).2).1 =
      Status.OK ∧
    (HeapFileScan.endScan (simEnv simConsts)
      (HeapFileScan.markDirty emptyScan).2).2.curDirtyFlag = true := by
  refine ⟨by decide, by decide, by decide⟩

/-- C16 amended: after one `endScan` `curPage` is null, and a second `endScan`
returns OK and leaves the handle, its world and its trace unchanged; when
`curPage` was non-null the first `endScan` issues exactly one unpin, of
`curPageNo` with `curDirtyFlag`, returns its status and sets `curPageNo = 0`
and `curDirtyFlag = false`; when `curPage` was null it returns OK and leaves
the handle unchanged. -/
theorem endScan_idempotent (env : Env W) (h : HeapFile W) :
    (HeapFileScan.endScan env h).2.curPage = none ∧
    HeapFileScan.endScan env (HeapFileScan.endScan env h).2 =
      (Status.OK, (HeapFileScan.endScan env h).2) ∧
    (h.curPage.isSome = true →
      (HeapFileScan.endScan env h).1 =
        (env.unPinPage h.world h.curPageNo h.curDirtyFlag).1 ∧
      (HeapFileScan.endScan env h).2.trace =
        h.trace ++ [BufCall.unPinPage h.curPageNo h.curDirtyFlag] ∧
      (HeapFileScan.endScan env h).2.curPageNo = 0 ∧
      (HeapFileScan.endScan env h).2.curDirtyFlag = false) ∧
    (h.curPage = none → HeapFileScan.endScan env h = (Status.OK, h)) := by
  cases hcp : h.curPage with
  | none => simp [HeapFileScan.endScan, hcp]
  | some a => simp [HeapFileScan.endScan, hcp, bufUnPinPage]

/-- C16 amended, at a concrete input: the scan handle with page 2 pinned. -/
theorem endScan_idempotent_witness :
    (emptyPositioned RID.init).curPage.isSome = true ∧
    (HeapFileScan.endScan (simEnv simConsts) (emptyPositioned RID.init)).2.trace =
      (emptyPositioned RID.init).trace ++
        [BufCall.unPinPage (emptyPositioned RID.init).curPageNo
          (emptyPositioned RID.init).curDirtyFlag] :=
  ⟨by decide,
   ((endScan_idempotent (simEnv simConsts) (emptyPositioned RID.init)).2.2.1 (by decide)).2.1⟩

/-- C18: evaluation. After `createHeapFile` the file has two pages, the
header page and one data page, and `pageCnt` is 1; after the overflow of
page 2 it has three pages, two of them data pages, and `pageCnt` is 2. The
count is the number of data pages, not one more. -/
theorem pageCnt_misses_first_data_page :
    (createHeapFile (simEnv simConsts) emptyWorld "t1" emptyWorld.hdr).map (fun r => r.1) =
      Except.ok Status.OK ∧
    createdWorld.pages.length = 2 ∧
    createdWorld.hdr.pageCnt = 1 ∧
    (afterTwoInserts 600).world.pages.length = 3 ∧
    (afterTwoInserts 600).headerPage.pageCnt = 2 := by
  refine ⟨by decide, by decide, by decide, by decide, by decide⟩

/-- C19: evaluation on a scan handle that holds page 2 pinned.
`HeapFile::getRecord` of a RID on page 99 unpins page 2, fails to read page 99
and returns the failure; `curPage` is still non-null although the handle holds
no pin on page 2, and the `endScan` that follows unpins page 2 a second time. -/
theorem failed_read_leaves_stale_curPage :
    (emptyPositioned RID.init).world.pins = [2, 1] ∧
    (HeapFile.getRecord (simEnv simConsts) Status.OK (emptyPositioned RID.init)
        { pageNo := 99, slotNo := 0 }).map (fun r => r.1) = Except.ok (Status.other 3) ∧
    afterFailedRead.curPage = some 2 ∧
    afterFailedRead.curPageNo = 2 ∧
    afterFailedRead.world.pins = [1] ∧
    afterFailedRead.trace =
      [BufCall.readPage 1, BufCall.readPage 2, BufCall.unPinPage 2 false,
       BufCall.readPage 99] ∧
    (HeapFileScan.endScan (simEnv simConsts) afterFailedRead).1 = Status.other 4 ∧
    (HeapFileScan.endScan (simEnv simConsts) afterFailedRead).2.trace =
      [BufCall.readPage 1, BufCall.readPage 2, BufCall.unPinPage 2 false,
       BufCall.readPage 99, BufCall.unPinPage 2 false] := by
  refine ⟨by decide, by decide, by decide, by decide, by decide, by decide, by decide,
    by decide⟩

/-! ## Properties of the file lifecycle -/

/-- The members that `scanNext` never writes. -/
theorem scanNext_untouched (env : Env W) (fuel : Nat) (tmpRid outRid : RID)
    (h : HeapFile W) (st : Status) (r : RID) (h' : HeapFile W)
    (hres : HeapFileScan.scanNext env fuel tmpRid outRid h = Except.ok (st, r, h')) :
    h'.markedPageNo = h.markedPageNo ∧ h'.markedRec = h.markedRec ∧
    h'.headerPage = h.headerPage ∧ h'.hdrDirtyFlag = h.hdrDirtyFlag := by
  induction fuel generalizing h with
  | zero => simp [HeapFileScan.scanNext] at hres
  | succ n ih =>
      unfold HeapFileScan.scanNext at hres
      split at hres
      · simp at hres
      · simp only at hres
        split_ifs at hres
        · simp only [Except.ok.injEq, Prod.mk.injEq] at hres
          rw [← hres.2.2]; exact ⟨rfl, rfl, rfl, rfl⟩
        · simp only [Except.ok.injEq, Prod.mk.injEq] at hres
          rw [← hres.2.2]; exact ⟨rfl, rfl, rfl, rfl⟩
        · have h1 := ih _ hres
          exact h1
        · simp only [Except.ok.injEq, Prod.mk.injEq] at hres
          rw [← hres.2.2]; exact ⟨rfl, rfl, rfl, rfl⟩
        · simp only [Except.ok.injEq, Prod.mk.injEq] at hres
          rw [← hres.2.2]; exact ⟨rfl, rfl, rfl, rfl⟩
        · split at hres
          · simp at hres
          · simp only [Except.ok.injEq, Prod.mk.injEq] at hres
            rw [← hres.2.2]; exact ⟨rfl, rfl, rfl, rfl⟩
          · exact ih _ hres

/-- The members that `HeapFile::getRecord` never writes. -/
theorem getRecord_untouched (env : Env W) (status0 : Status) (h : HeapFile W) (rid : RID)
    (st : Status) (rec : Option Record) (h' : HeapFile W)
    (hres : HeapFile.getRecord env status0 h rid = Except.ok (st, rec, h')) :
    h'.markedPageNo = h.markedPageNo ∧ h'.markedRec = h.markedRec ∧
    h'.headerPage = h.headerPage ∧ h'.hdrDirtyFlag = h.hdrDirtyFlag := by
  unfold HeapFile.getRecord at hres
  simp only at hres
  split_ifs at hres with h1 h2 h3
  all_goals first
    | (simp only [Except.ok.injEq, Prod.mk.injEq] at hres
       rw [← hres.2.2]; exact ⟨rfl, rfl, rfl, rfl⟩)
    | (split at hres
       · simp at hres
       · simp only [Except.ok.injEq, Prod.mk.injEq] at hres
         rw [← hres.2.2]; exact ⟨rfl, rfl, rfl, rfl⟩)

/-- The mark is not written by the insertion on the current page. -/
theorem insertOnPage_marked (env : Env W) (h : HeapFile W) (rec : Record)
    (outRid : RID) (st : Status) (r : RID) (h' : HeapFile W)
    (hres : insertOnPage env h rec outRid = Except.ok (st, r, h')) :
    h'.markedPageNo = h.markedPageNo ∧ h'.markedRec = h.markedRec := by
  unfold insertOnPage at hres
  split at hres
  · simp at hres
  · simp only at hres
    split_ifs at hres
    all_goals
      simp only [Except.ok.injEq, Prod.mk.injEq] at hres
      rw [← hres.2.2]; exact ⟨rfl, rfl⟩

/-- The mark is not written by `insertRecord`. -/
theorem insertRecord_marked (env : Env W) (c : Consts) (h : HeapFile W) (rec : Record)
    (outRid : RID) (st : Status) (r : RID) (h' : HeapFile W)
    (hres : InsertFileScan.insertRecord env c h rec outRid = Except.ok (st, r, h')) :
    h'.markedPageNo = h.markedPageNo ∧ h'.markedRec = h.markedRec := by
  unfold InsertFileScan.insertRecord insertAfterCheck at hres
  simp only at hres
  split_ifs at hres with h1 h2
  · simp only [Except.ok.injEq, Prod.mk.injEq] at hres
    rw [← hres.2.2]; exact ⟨rfl, rfl⟩
  · simp only [Except.ok.injEq, Prod.mk.injEq] at hres
    rw [← hres.2.2]
    unfold pinForInsert
    split_ifs <;> exact ⟨rfl, rfl⟩
  · have h3 := insertOnPage_marked env _ rec outRid st r h' hres
    have h4 : (pinForInsert env h).2.markedPageNo = h.markedPageNo ∧
        (pinForInsert env h).2.markedRec = h.markedRec := by
      unfold pinForInsert
      split_ifs <;> exact ⟨rfl, rfl⟩
    exact ⟨h3.1.trans h4.1, h3.2.trans h4.2⟩

/-- Only `markScan` writes the mark. -/
theorem run_marked (env : Env W) (op : Op) (h h' : HeapFile W) (hop : op.isMark = false)
    (hres : op.run env h = Except.ok h') :
    h'.markedPageNo = h.markedPageNo ∧ h'.markedRec = h.markedRec := by
  cases op with
  | getRecord status0 rid =>
      simp only [Op.run] at hres
      cases hg : HeapFile.getRecord env status0 h rid with
      | error e => simp [hg, Except.map] at hres
      | ok x =>
          obtain ⟨st, rec, g⟩ := x
          simp only [hg, Except.map, Except.ok.injEq] at hres
          subst hres
          exact ⟨(getRecord_untouched env status0 h rid st rec g hg).1,
            (getRecord_untouched env status0 h rid st rec g hg).2.1⟩
  | startScan o l t f c =>
      simp only [Op.run, Except.ok.injEq] at hres
      subst hres; exact ⟨rfl, rfl⟩
  | endScan =>
      simp only [Op.run, Except.ok.injEq] at hres
      subst hres
      unfold HeapFileScan.endScan
      split_ifs <;> exact ⟨rfl, rfl⟩
  | markScan => simp [Op.isMark] at hop
  | resetScan =>
      simp only [Op.run, Except.ok.injEq] at hres
      subst hres
      unfold HeapFileScan.resetScan
      simp only
      split_ifs <;> exact ⟨rfl, rfl⟩
  | scanNext fuel tmpRid outRid =>
      simp only [Op.run] at hres
      cases hg : HeapFileScan.scanNext env fuel tmpRid outRid h with
      | error e => simp [hg, Except.map] at hres
      | ok x =>
          obtain ⟨st, r, g⟩ := x
          simp only [hg, Except.map, Except.ok.injEq] at hres
          subst hres
          exact ⟨(scanNext_untouched env fuel tmpRid outRid h st r g hg).1,
            (scanNext_untouched env fuel tmpRid outRid h st r g hg).2.1⟩
  | scanGetRecord =>
      simp only [Op.run] at hres
      cases hg : HeapFileScan.getRecord env h with
      | error e => simp [hg, Except.map] at hres
      | ok x =>
          simp only [hg, Except.map, Except.ok.injEq] at hres
          subst hres; exact ⟨rfl, rfl⟩
  | deleteRecord =>
      simp only [Op.run] at hres
      unfold HeapFileScan.deleteRecord at hres
      split at hres
      · simp [Except.map] at hres
      · simp only [Except.map, Except.ok.injEq] at hres
        subst hres; exact ⟨rfl, rfl⟩
  | markDirty =>
      simp only [Op.run, Except.ok.injEq] at hres
      subst hres; exact ⟨rfl, rfl⟩
  | insertRecord c rec outRid =>
      simp only [Op.run] at hres
      cases hg : InsertFileScan.insertRecord env c h rec outRid with
      | error e => simp [hg, Except.map] at hres
      | ok x =>
          obtain ⟨st, r, g⟩ := x
          simp only [hg, Except.map, Except.ok.injEq] at hres
          subst hres
          exact insertRecord_marked env c h rec outRid st r g hg

/-- A sequence of calls without `markScan` leaves the mark as it was. -/
theorem runOps_marked (env : Env W) (ops : List Op) (h h' : HeapFile W)
    (hops : ∀ op ∈ ops, op.isMark = false) (hres : runOps env ops h = Except.ok h') :
    h'.markedPageNo = h.markedPageNo ∧ h'.markedRec = h.markedRec := by
  induction ops generalizing h with
  | nil =>
      simp only [runOps, Except.ok.injEq] at hres
      subst hres; exact ⟨rfl, rfl⟩
  | cons op rest ih =>
      simp only [runOps] at hres
      cases hg : op.run env h with
      | error e => simp [hg] at hres
      | ok g =>
          simp only [hg] at hres
          have h1 := run_marked env op h g (hops op (List.mem_cons_self _ _)) hg
          have h2 := ih g (fun o ho => hops o (List.mem_cons_of_mem _ ho)) hres
          exact ⟨h2.1.trans h1.1, h2.2.trans h1.2⟩

/-- C15 amended: `markScan`, then any sequence of calls without another
`markScan`, then a `resetScan` that returns OK leaves `curPageNo` and
`curRec` equal to the values they had at `markScan`. If the marked page
number equals the current one, `resetScan` makes no buffer-cache call and
changes only `curRec`, so the handle's pin is what it was. Otherwise it
issues the unpin of the current page with `curDirtyFlag` (only if `curPage`
is non-null) and then the read of the marked page, which becomes the page
`curPage` refers to, and `curDirtyFlag` is false. -/
theorem markScan_resetScan_restores (env : Env W) (h : HeapFile W) (ops : List Op)
    (h1 h2 : HeapFile W) (hops : ∀ op ∈ ops, op.isMark = false)
    (hrun : runOps env ops (HeapFileScan.markScan h).2 = Except.ok h1)
    (hok : HeapFileScan.resetScan env h1 = (Status.OK, h2)) :
    h2.curPageNo = h.curPageNo ∧ h2.curRec = h.curRec ∧
    (h1.curPageNo = h.curPageNo → h2 = { h1 with curRec := h.curRec }) ∧
    (h1.curPageNo ≠ h.curPageNo →
      h2.trace = h1.trace ++
        (if h1.curPage.isSome then [BufCall.unPinPage h1.curPageNo h1.curDirtyFlag] else []) ++
        [BufCall.readPage h.curPageNo] ∧
      h2.curPage = some h.curPageNo ∧ h2.curDirtyFlag = false) := by
  have hm := runOps_marked env ops _ h1 hops hrun
  have hmp : h.curPageNo = h1.markedPageNo := hm.1.symm
  have hmr : h.curRec = h1.markedRec := hm.2.symm
  rw [hmp, hmr]
  unfold HeapFileScan.resetScan at hok
  simp only at hok
  by_cases hsame : h1.markedPageNo = h1.curPageNo
  · rw [if_neg (not_not.2 hsame)] at hok
    have h2eq : h2 = { h1 with curRec := h1.markedRec } := (congrArg Prod.snd hok).symm
    subst h2eq
    exact ⟨hsame.symm, rfl, fun _ => rfl, fun hne => absurd hsame.symm hne⟩
  · rw [if_pos hsame] at hok
    cases hcp : h1.curPage with
    | none =>
        simp only [hcp, Option.isSome_none, Bool.false_eq_true, if_false, false_and] at hok
        split_ifs at hok with hr
        · have h3 := congrArg Prod.fst hok
          exact absurd h3 hr
        · have h2eq := (congrArg Prod.snd hok).symm
          simp only at h2eq
          subst h2eq
          simp only [bufReadPage, not_not] at hr
          refine ⟨rfl, rfl, fun heq => absurd heq.symm hsame, fun _ => ?_⟩
          simp [bufReadPage, hr]
    | some a =>
        simp only [hcp, Option.isSome_some, if_true, true_and] at hok
        split_ifs at hok with hu hr
        · have h3 := congrArg Prod.fst hok
          exact absurd h3 hu
        · have h3 := congrArg Prod.fst hok
          exact absurd h3 hr
        · have h2eq := (congrArg Prod.snd hok).symm
          simp only at h2eq
          subst h2eq
          simp only [bufReadPage, bufUnPinPage, not_not] at hr
          refine ⟨rfl, rfl, fun heq => absurd heq.symm hsame, fun _ => ?_⟩
          simp [bufReadPage, bufUnPinPage, hr]

/-- C15 amended, at a concrete input: the scan is marked on page 2, moved to
page 3, and reset; page 3 is unpinned and page 2 is read again. -/
theorem markScan_resetScan_restores_witness :
    (HeapFileScan.resetScan (simEnv simConsts) scanMovedTo3).2.curPageNo =
      scanOnPage2.curPageNo ∧
    (HeapFileScan.resetScan (simEnv simConsts) scanMovedTo3).2.curRec = scanOnPage2.curRec ∧
    scanMovedTo3.curPageNo = 3 ∧ scanOnPage2.curPageNo = 2 ∧
    (HeapFileScan.resetScan (simEnv simConsts) scanMovedTo3).2.trace =
      scanMovedTo3.trace ++ [BufCall.unPinPage 3 false, BufCall.readPage 2] :=
  ⟨(markScan_resetScan_restores (simEnv simConsts) scanOnPage2
      [Op.getRecord Status.OK { pageNo := 3, slotNo := 0 }] scanMovedTo3
      (HeapFileScan.resetScan (simEnv simConsts) scanMovedTo3).2
      (by decide) rfl (Prod.ext (by decide) rfl)).1,
   (markScan_resetScan_restores (simEnv simConsts) scanOnPage2
      [Op.getRecord Status.OK { pageNo := 3, slotNo := 0 }] scanMovedTo3
      (HeapFileScan.resetScan (simEnv simConsts) scanMovedTo3).2
      (by decide) rfl (Prod.ext (by decide) rfl)).2.1,
   by decide, by decide, by decide⟩

/-! ## Dirty-flag propagation -/

theorem goodCore_of_idle (m : Monitor) (cp : Option Int) (n : Int) (f : Bool) (h : Idle m) :
    GoodCore m cp n f :=
  ⟨h.1, fun p hp => absurd (h.2 p) hp, fun p hp => by rw [h.2 p] at hp; cases hp⟩

theorem idle_of_goodCore_none (m : Monitor) (n : Int) (f : Bool) (h : GoodCore m none n f) :
    Idle m := by
  refine ⟨h.1, fun p => ?_⟩
  by_contra hp
  exact Option.noConfusion (h.2.1 p hp).1

theorem idle_unpin (m : Monitor) (cp : Option Int) (n : Int) (f : Bool)
    (h : GoodCore m cp n f) : Idle (m.unpin n f) := by
  refine ⟨?_, fun p => ?_⟩
  · simp only [Monitor.unpin, h.1, Bool.false_or, Bool.and_eq_false_imp, decide_eq_true_eq]
    intro hc
    simp [h.2.2 n hc]
  · simp only [Monitor.unpin]
    split_ifs with hpn
    · rfl
    · by_contra hp
      exact hpn (h.2.1 p hp).2.symm

theorem goodCore_pin (m : Monitor) (q : Int) (f : Bool) (h : Idle m) :
    GoodCore (m.pin q) (some q) q f := by
  have hq : (m.pin q).mark q = PinMark.clean := by
    simp [Monitor.pin, h.2 q]
  have hne : ∀ p, p ≠ q → (m.pin q).mark p = PinMark.unpinned := by
    intro p hpq
    simp [Monitor.pin, hpq, h.2 p]
  refine ⟨h.1, fun p hp => ?_, fun p hp => ?_⟩
  · by_cases hpq : p = q
    · exact ⟨by rw [hpq], hpq.symm⟩
    · exact absurd (hne p hpq) hp
  · by_cases hpq : p = q
    · rw [hpq, hq] at hp; cases hp
    · rw [hne p hpq] at hp; cases hp

theorem goodCore_change (m : Monitor) (cp : Option Int) (n p : Int) (f : Bool)
    (h : GoodCore m cp n f) : GoodCore (m.change p) cp n true := by
  refine ⟨h.1, fun q hq => ?_, fun _ _ => rfl⟩
  simp only [Monitor.change] at hq
  split_ifs at hq with hqp hu
  · exact absurd rfl hq
  · rw [hqp]; exact h.2.1 p hu
  · exact h.2.1 q hq

theorem goodCore_flag (m : Monitor) (cp : Option Int) (n : Int) (f : Bool)
    (h : GoodCore m cp n f) : GoodCore m cp n true :=
  ⟨h.1, h.2.1, fun _ _ => rfl⟩

theorem goodCore_alloc_unpin (m : Monitor) (cp : Option Int) (n q : Int) (f g : Bool)
    (h : GoodCore m cp n f) : GoodCore ((m.pin q).unpin n f) (some q) q g ∧
      ∀ p, ((m.pin q).unpin n f).mark p ≠ PinMark.changed := by
  have hmark : ∀ p, ((m.pin q).unpin n f).mark p ≠ PinMark.unpinned →
      p = q ∧ ((m.pin q).unpin n f).mark p = PinMark.clean := by
    intro p hp
    simp only [Monitor.unpin, Monitor.pin] at hp ⊢
    split_ifs at hp ⊢ with hpn hpq hc
    · exact absurd rfl hp
    · exfalso
      have := (h.2.1 q (by rw [hc]; decide)).2
      exact hpn (hpq.trans this.symm)
    · exact ⟨hpq, rfl⟩
    · exact absurd (h.2.1 p hp).2.symm hpn
  refine ⟨⟨?_, fun p hp => ?_, fun p hp => ?_⟩, fun p hp => ?_⟩
  · simp only [Monitor.unpin, Monitor.pin, h.1, Bool.false_or, Bool.and_eq_false_imp,
      decide_eq_true_eq]
    intro hc
    split_ifs at hc with hnq hc2
    · simp [h.2.2 q hc2]
    · simp [h.2.2 n hc]
  · exact ⟨by rw [(hmark p hp).1], (hmark p hp).1.symm⟩
  · have := (hmark p (by rw [hp]; decide)).2
    rw [hp] at this; cases this
  · have := (hmark p (by rw [hp]; decide)).2
    rw [hp] at this; cases this

/-- The unpin of the current page with `curDirtyFlag`, issued from a good
state, passes the check and leaves nothing pinned. -/
theorem idle_bufUnPin (env : Env W) (h : HeapFile (W × Monitor)) (hg : Good h) :
    Idle (bufUnPinPage (monEnv env) h h.curPageNo h.curDirtyFlag).2.world.2 :=
  idle_unpin _ _ _ _ hg

/-- A read issued when nothing is pinned: on success the page read is the one
pinned page, unchanged; on failure nothing is pinned. -/
theorem bufRead_from_idle (env : Env W) (g : HeapFile (W × Monitor)) (q : Int)
    (hidle : Idle g.world.2) :
    ((bufReadPage (monEnv env) g q).1 = Status.OK →
      (bufReadPage (monEnv env) g q).2.curPage = some q ∧
      ∀ f, GoodCore (bufReadPage (monEnv env) g q).2.world.2 (some q) q f) ∧
    ((bufReadPage (monEnv env) g q).1 ≠ Status.OK →
      Idle (bufReadPage (monEnv env) g q).2.world.2) := by
  constructor
  · intro hok
    have hw : (bufReadPage (monEnv env) g q).2.world.2 = g.world.2.pin q := if_pos hok
    have hc : (bufReadPage (monEnv env) g q).2.curPage = some q := if_pos hok
    exact ⟨hc, fun f => by rw [hw]; exact goodCore_pin _ _ _ hidle⟩
  · intro hfail
    have hw : (bufReadPage (monEnv env) g q).2.world.2 = g.world.2 := if_neg hfail
    rw [hw]; exact hidle

/-- The state from which `getRecord`, `resetScan` and `scanNext` read the
next page: the current page, if any, has been unpinned. -/
theorem idle_before_read (env : Env W) (h : HeapFile (W × Monitor)) (hg : Good h) :
    Idle (if h.curPage.isSome then (bufUnPinPage (monEnv env) h h.curPageNo h.curDirtyFlag).2
          else h).world.2 := by
  cases hcp : h.curPage with
  | none =>
      simp only [Option.isSome_none, Bool.false_eq_true, if_false]
      have hg' : GoodCore h.world.2 none h.curPageNo h.curDirtyFlag := by
        have := hg; unfold Good at this; rw [hcp] at this; exact this
      exact idle_of_goodCore_none _ _ _ hg'
  | some a =>
      simp only [Option.isSome_some, if_true]
      exact idle_bufUnPin env h hg

/-- `HeapFile::getRecord` keeps the checker's relation. -/
theorem getRecord_good (env : Env W) (status0 : Status) (h : HeapFile (W × Monitor))
    (rid : RID) (st : Status) (rec : Option Record) (h' : HeapFile (W × Monitor))
    (hg : Good h)
    (hres : HeapFile.getRecord (monEnv env) status0 h rid = Except.ok (st, rec, h')) :
    Good h' := by
  have hidle := idle_before_read env h hg
  unfold HeapFile.getRecord at hres
  simp only at hres
  by_cases hne : rid.pageNo ≠ h.curPageNo
  · rw [if_pos hne] at hres
    generalize (if h.curPage.isSome = true then
      (bufUnPinPage (monEnv env) h h.curPageNo h.curDirtyFlag).2 else h) = h1 at hres hidle
    have hrd := bufRead_from_idle env h1 rid.pageNo hidle
    by_cases hfail : (bufReadPage (monEnv env) h1 rid.pageNo).1 ≠ Status.OK
    · rw [if_pos hfail] at hres
      simp only [Except.ok.injEq, Prod.mk.injEq] at hres
      rw [← hres.2.2]
      exact goodCore_of_idle _ _ _ _ (hrd.2 hfail)
    · rw [if_neg hfail] at hres
      have hok := not_not.1 hfail
      split at hres
      · simp at hres
      · simp only [Except.ok.injEq, Prod.mk.injEq] at hres
        rw [← hres.2.2]
        show GoodCore _ _ _ _
        simp only
        rw [(hrd.1 hok).1]
        exact (hrd.1 hok).2 false
  · rw [if_neg hne] at hres
    split at hres
    · simp at hres
    · simp only [Except.ok.injEq, Prod.mk.injEq] at hres
      rw [← hres.2.2]; exact hg

/-- `endScan` keeps the checker's relation. -/
theorem endScan_good (env : Env W) (h : HeapFile (W × Monitor)) (hg : Good h) :
    Good (HeapFileScan.endScan (monEnv env) h).2 := by
  unfold HeapFileScan.endScan
  split_ifs with hcp
  · exact goodCore_of_idle _ _ _ _ (idle_bufUnPin env h hg)
  · exact hg

/-- The collaborator's read issued when nothing is pinned. -/
theorem readPage_idle (env : Env W) (w : W × Monitor) (q : Int) (hidle : Idle w.2) :
    (((monEnv env).readPage w q).1 = Status.OK →
      ∀ f, GoodCore ((monEnv env).readPage w q).2.2 (some q) q f) ∧
    (((monEnv env).readPage w q).1 ≠ Status.OK → Idle ((monEnv env).readPage w q).2.2) := by
  constructor
  · intro hok f
    have hw : ((monEnv env).readPage w q).2.2 = w.2.pin q := if_pos hok
    rw [hw]; exact goodCore_pin _ _ _ hidle
  · intro hfail
    have hw : ((monEnv env).readPage w q).2.2 = w.2 := if_neg hfail
    rw [hw]; exact hidle

/-- `resetScan` keeps the checker's relation. -/
theorem resetScan_good (env : Env W) (h : HeapFile (W × Monitor)) (hg : Good h) :
    Good (HeapFileScan.resetScan (monEnv env) h).2 := by
  have hidle := idle_before_read env h hg
  unfold HeapFileScan.resetScan
  simp only [bufReadPage, bufUnPinPage]
  by_cases hne : h.markedPageNo ≠ h.curPageNo
  · rw [if_pos hne]
    cases hcp : h.curPage with
    | none =>
        simp only [hcp, Option.isSome_none, Bool.false_eq_true, if_false, false_and] at hidle ⊢
        have hrd := readPage_idle env h.world h.markedPageNo hidle
        by_cases hr : ((monEnv env).readPage h.world h.markedPageNo).1 = Status.OK
        · simp only [hr, ne_eq, not_true_eq_false, if_false, if_true]
          exact hrd.1 hr false
        · simp only [hr, ne_eq, not_false_eq_true, if_true, if_false]
          exact goodCore_of_idle _ _ _ _ (hrd.2 hr)
    | some a =>
        simp only [hcp, Option.isSome_some, if_true, true_and] at hidle ⊢
        have hidle2 : Idle ((monEnv env).unPinPage h.world h.curPageNo h.curDirtyFlag).2.2 :=
          idle_unpin _ _ _ _ hg
        have hrd := readPage_idle env
          ((monEnv env).unPinPage h.world h.curPageNo h.curDirtyFlag).2 h.markedPageNo hidle2
        by_cases hu : ((monEnv env).unPinPage h.world h.curPageNo h.curDirtyFlag).1 = Status.OK
        · by_cases hr : ((monEnv env).readPage
              ((monEnv env).unPinPage h.world h.curPageNo h.curDirtyFlag).2
              h.markedPageNo).1 = Status.OK
          · simp only [hu, hr, ne_eq, not_true_eq_false, if_false, if_true]
            exact hrd.1 hr false
          · simp only [hu, hr, ne_eq, not_true_eq_false, not_false_eq_true, if_true, if_false]
            exact goodCore_of_idle _ _ _ _ (hrd.2 hr)
        · simp only [hu, ne_eq, not_false_eq_true, if_true]
          exact goodCore_of_idle _ _ _ _ hidle2
  · rw [if_neg hne]
    exact hg

/-- `scanNext` keeps the checker's relation. -/
theorem scanNext_good (env : Env W) (fuel : Nat) (tmpRid outRid : RID)
    (h : HeapFile (W × Monitor)) (st : Status) (r : RID) (h' : HeapFile (W × Monitor))
    (hg : Good h)
    (hres : HeapFileScan.scanNext (monEnv env) fuel tmpRid outRid h = Except.ok (st, r, h')) :
    Good h' := by
  induction fuel generalizing h with
  | zero => simp [HeapFileScan.scanNext] at hres
  | succ n ih =>
      unfold HeapFileScan.scanNext at hres
      split at hres
      · simp at hres
      · rename_i p hp
        have hrd := bufRead_from_idle env
          (bufUnPinPage (monEnv env) h h.curPageNo h.curDirtyFlag).2
          ((monEnv env).pageGetNextPage h.world p).2 (idle_bufUnPin env h hg)
        simp only at hres
        split_ifs at hres with h1 h2 h3 h4 h5
        · simp only [Except.ok.injEq, Prod.mk.injEq] at hres
          rw [← hres.2.2]; exact hg
        · simp only [Except.ok.injEq, Prod.mk.injEq] at hres
          rw [← hres.2.2]
          exact goodCore_of_idle _ _ _ _ (hrd.2 h3)
        · refine ih _ ?_ hres
          have hok := not_not.1 h3
          show GoodCore _ _ _ _
          simp only
          rw [(hrd.1 hok).1]
          exact (hrd.1 hok).2 false
        · simp only [Except.ok.injEq, Prod.mk.injEq] at hres
          rw [← hres.2.2]; exact hg
        · simp only [Except.ok.injEq, Prod.mk.injEq] at hres
          rw [← hres.2.2]; exact hg
        · split at hres
          · simp at hres
          · simp only [Except.ok.injEq, Prod.mk.injEq] at hres
            rw [← hres.2.2]; exact hg
          · exact ih _ hg hres

/-- A page mutator's answer, applied to the checker's state. -/
theorem goodCore_change_if (m : Monitor) (cp : Option Int) (n p : Int) (f : Bool) (c : Prop)
    [Decidable c] (h : GoodCore m cp n f) :
    GoodCore (if c then m.change p else m) cp n true := by
  split_ifs
  · exact goodCore_change _ _ _ _ _ h
  · exact goodCore_flag _ _ _ _ h

/-- `deleteRecord` keeps the checker's relation. -/
theorem deleteRecord_good (env : Env W) (h : HeapFile (W × Monitor)) (st : Status)
    (h' : HeapFile (W × Monitor)) (hg : Good h)
    (hres : HeapFileScan.deleteRecord (monEnv env) h = Except.ok (st, h')) : Good h' := by
  unfold HeapFileScan.deleteRecord at hres
  split at hres
  · simp at hres
  · simp only [Except.ok.injEq, Prod.mk.injEq] at hres
    rw [← hres.2]
    exact goodCore_change_if _ _ _ _ _ _ hg

/-- The pin step of `insertRecord` keeps the checker's relation. -/
theorem pinForInsert_good (env : Env W) (h : HeapFile (W × Monitor)) (hg : Good h) :
    Good (pinForInsert (monEnv env) h).2 := by
  unfold pinForInsert
  cases hcp : h.curPage with
  | some a => simp only [Option.isNone_some, Bool.false_eq_true, if_false]; exact hg
  | none =>
      simp only [Option.isNone_none, if_true, bufReadPage]
      have hidle : Idle h.world.2 := by
        have hg' : GoodCore h.world.2 none h.curPageNo h.curDirtyFlag := by
          have := hg; unfold Good at this; rw [hcp] at this; exact this
        exact idle_of_goodCore_none _ _ _ hg'
      have hrd := readPage_idle env h.world h.headerPage.lastPage hidle
      by_cases hr : ((monEnv env).readPage h.world h.headerPage.lastPage).1 = Status.OK
      · show GoodCore _ _ _ _
        simp only [hr, if_true]
        exact hrd.1 hr _
      · exact goodCore_of_idle _ _ _ _ (hrd.2 hr)

/-- A page insertion keeps the relation and, when it succeeds, asks for a
true flag. -/
theorem goodCore_insert (env : Env W) (w : W × Monitor) (p : Int) (rec : Record)
    (cp : Option Int) (n : Int) (f : Bool) (h : GoodCore w.2 cp n f) :
    GoodCore ((monEnv env).pageInsertRecord w p rec).2.2.2 cp n true ∧
    (((monEnv env).pageInsertRecord w p rec).1 ≠ Status.OK →
      GoodCore ((monEnv env).pageInsertRecord w p rec).2.2.2 cp n f) := by
  refine ⟨goodCore_change_if _ _ _ _ _ _ h, fun hne => ?_⟩
  have hw : ((monEnv env).pageInsertRecord w p rec).2.2.2 = w.2 := if_neg hne
  rw [hw]; exact h

/-- A change of the forward link keeps the relation under a true flag. -/
theorem goodCore_setNext (env : Env W) (w : W × Monitor) (p q : Int)
    (cp : Option Int) (n : Int) (f : Bool) (h : GoodCore w.2 cp n f) :
    GoodCore ((monEnv env).pageSetNextPage w p q).2.2 cp n true :=
  goodCore_change_if _ _ _ _ _ _ h

/-- A page initialisation keeps the relation under a true flag. -/
theorem goodCore_init (env : Env W) (w : W × Monitor) (p q : Int)
    (cp : Option Int) (n : Int) (f : Bool) (h : GoodCore w.2 cp n f) :
    GoodCore ((monEnv env).pageInit w p q).2 cp n true :=
  goodCore_change _ _ _ _ _ h

/-- A failed allocation keeps the relation. -/
theorem goodCore_alloc_fail (env : Env W) (w : W × Monitor)
    (cp : Option Int) (n : Int) (f : Bool) (h : GoodCore w.2 cp n f)
    (hfail : ((monEnv env).allocPage w).1 ≠ Status.OK) :
    GoodCore ((monEnv env).allocPage w).2.2.2 cp n f := by
  have hw : ((monEnv env).allocPage w).2.2.2 = w.2 := if_neg hfail
  rw [hw]; exact h

/-- After a successful allocation and the unpin of the former current page
with its flag, the new page is the one pinned page. -/
theorem goodCore_alloc_ok (env : Env W) (w : W × Monitor)
    (cp : Option Int) (n : Int) (f g : Bool) (h : GoodCore w.2 cp n f)
    (hok : ((monEnv env).allocPage w).1 = Status.OK) :
    GoodCore ((monEnv env).unPinPage ((monEnv env).allocPage w).2.2 n f).2.2
      (some ((monEnv env).allocPage w).2.1) ((monEnv env).allocPage w).2.1 g := by
  have hw : ((monEnv env).allocPage w).2.2.2 = w.2.pin ((monEnv env).allocPage w).2.1 :=
    if_pos hok
  have hu : ((monEnv env).unPinPage ((monEnv env).allocPage w).2.2 n f).2.2 =
      (((monEnv env).allocPage w).2.2.2).unpin n f := rfl
  rw [hu, hw]
  exact (goodCore_alloc_unpin _ _ _ _ _ _ h).1

/-- The insertion on the current page, with the overflow to a new page,
keeps the checker's relation. -/
theorem insertOnPage_good (env : Env W) (g : HeapFile (W × Monitor)) (rec : Record)
    (outRid : RID) (st : Status) (r : RID) (h' : HeapFile (W × Monitor)) (hg : Good g)
    (hres : insertOnPage (monEnv env) g rec outRid = Except.ok (st, r, h')) : Good h' := by
  unfold insertOnPage at hres
  split at hres
  · simp at hres
  · rename_i p hp
    simp only [bufAllocPage, bufUnPinPage] at hres
    have hg0 : GoodCore g.world.2 g.curPage g.curPageNo g.curDirtyFlag := hg
    split_ifs at hres with hi ha hl hj hio
    · simp only [Except.ok.injEq, Prod.mk.injEq] at hres
      rw [← hres.2.2]
      have hio : ((monEnv env).pageInsertRecord g.world p rec).1 ≠ Status.OK := by
        rw [hi]; decide
      exact goodCore_alloc_fail env _ _ _ _ ((goodCore_insert env _ p rec _ _ _ hg0).2 hio) ha
    · simp only [Except.ok.injEq, Prod.mk.injEq] at hres
      rw [← hres.2.2]
      have hio : ((monEnv env).pageInsertRecord g.world p rec).1 ≠ Status.OK := by
        rw [hi]; decide
      exact goodCore_setNext env _ _ _ _ _ true
        (goodCore_init env _ _ _ _ _ true
          (goodCore_alloc_ok env _ _ _ _ true
            ((goodCore_insert env _ p rec _ _ _ hg0).2 hio) (not_not.1 ha)))
    · simp only [Except.ok.injEq, Prod.mk.injEq] at hres
      rw [← hres.2.2]
      have hio : ((monEnv env).pageInsertRecord g.world p rec).1 ≠ Status.OK := by
        rw [hi]; decide
      exact (goodCore_insert env _ _ rec _ _ true
        (goodCore_setNext env _ _ _ _ _ true
          (goodCore_init env _ _ _ _ _ true
            (goodCore_alloc_ok env _ _ _ _ true
              ((goodCore_insert env _ p rec _ _ _ hg0).2 hio) (not_not.1 ha))))).1
    · simp only [Except.ok.injEq, Prod.mk.injEq] at hres
      rw [← hres.2.2]
      have hio : ((monEnv env).pageInsertRecord g.world p rec).1 ≠ Status.OK := by
        rw [hi]; decide
      exact (goodCore_insert env _ _ rec _ _ true
        (goodCore_setNext env _ _ _ _ _ true
          (goodCore_init env _ _ _ _ _ true
            (goodCore_alloc_ok env _ _ _ _ true
              ((goodCore_insert env _ p rec _ _ _ hg0).2 hio) (not_not.1 ha))))).1
    · simp only [Except.ok.injEq, Prod.mk.injEq] at hres
      rw [← hres.2.2]
      exact (goodCore_insert env _ p rec _ _ _ hg0).2 hio
    · simp only [Except.ok.injEq, Prod.mk.injEq] at hres
      rw [← hres.2.2]
      exact (goodCore_insert env _ p rec _ _ _ hg0).1

/-- `insertRecord` keeps the checker's relation. -/
theorem insertRecord_good (env : Env W) (c : Consts) (h : HeapFile (W × Monitor))
    (rec : Record) (outRid : RID) (st : Status) (r : RID) (h' : HeapFile (W × Monitor))
    (hg : Good h)
    (hres : InsertFileScan.insertRecord (monEnv env) c h rec outRid = Except.ok (st, r, h')) :
    Good h' := by
  unfold InsertFileScan.insertRecord insertAfterCheck at hres
  simp only at hres
  split_ifs at hres with h1 h2
  · simp only [Except.ok.injEq, Prod.mk.injEq] at hres
    rw [← hres.2.2]; exact hg
  · simp only [Except.ok.injEq, Prod.mk.injEq] at hres
    rw [← hres.2.2]; exact pinForInsert_good env h hg
  · exact insertOnPage_good env _ rec outRid st r h' (pinForInsert_good env h hg) hres

/-- Every call keeps the checker's relation. -/
theorem run_good (env : Env W) (op : Op) (h h' : HeapFile (W × Monitor)) (hg : Good h)
    (hres : op.run (monEnv env) h = Except.ok h') : Good h' := by
  cases op with
  | getRecord status0 rid =>
      simp only [Op.run] at hres
      cases hx : HeapFile.getRecord (monEnv env) status0 h rid with
      | error e => simp [hx, Except.map] at hres
      | ok x =>
          obtain ⟨st, rec, g⟩ := x
          simp only [hx, Except.map, Except.ok.injEq] at hres
          subst hres
          exact getRecord_good env status0 h rid st rec g hg hx
  | startScan o l t f c =>
      simp only [Op.run, Except.ok.injEq] at hres
      subst hres; exact hg
  | endScan =>
      simp only [Op.run, Except.ok.injEq] at hres
      subst hres; exact endScan_good env h hg
  | markScan =>
      simp only [Op.run, Except.ok.injEq] at hres
      subst hres; exact hg
  | resetScan =>
      simp only [Op.run, Except.ok.injEq] at hres
      subst hres; exact resetScan_good env h hg
  | scanNext fuel tmpRid outRid =>
      simp only [Op.run] at hres
      cases hx : HeapFileScan.scanNext (monEnv env) fuel tmpRid outRid h with
      | error e => simp [hx, Except.map] at hres
      | ok x =>
          obtain ⟨st, r, g⟩ := x
          simp only [hx, Except.map, Except.ok.injEq] at hres
          subst hres
          exact scanNext_good env fuel tmpRid outRid h st r g hg hx
  | scanGetRecord =>
      simp only [Op.run] at hres
      cases hx : HeapFileScan.getRecord (monEnv env) h with
      | error e => simp [hx, Except.map] at hres
      | ok x =>
          simp only [hx, Except.map, Except.ok.injEq] at hres
          subst hres; exact hg
  | deleteRecord =>
      simp only [Op.run] at hres
      cases hx : HeapFileScan.deleteRecord (monEnv env) h with
      | error e => simp [hx, Except.map] at hres
      | ok x =>
          obtain ⟨st, g⟩ := x
          simp only [hx, Except.map, Except.ok.injEq] at hres
          subst hres
          exact deleteRecord_good env h st g hg hx
  | markDirty =>
      simp only [Op.run, Except.ok.injEq] at hres
      subst hres; exact goodCore_flag _ _ _ _ hg
  | insertRecord c rec outRid =>
      simp only [Op.run] at hres
      cases hx : InsertFileScan.insertRecord (monEnv env) c h rec outRid with
      | error e => simp [hx, Except.map] at hres
      | ok x =>
          obtain ⟨st, r, g⟩ := x
          simp only [hx, Except.map, Except.ok.injEq] at hres
          subst hres
          exact insertRecord_good env c h rec outRid st r g hg hx

/-- Every sequence of calls keeps the checker's relation. -/
theorem runOps_good (env : Env W) (ops : List Op) (h h' : HeapFile (W × Monitor))
    (hg : Good h) (hres : runOps (monEnv env) ops h = Except.ok h') : Good h' := by
  induction ops generalizing h with
  | nil =>
      simp only [runOps, Except.ok.injEq] at hres
      subst hres; exact hg
  | cons op rest ih =>
      simp only [runOps] at hres
      cases hx : op.run (monEnv env) h with
      | error e => simp [hx] at hres
      | ok g =>
          simp only [hx] at hres
          exact ih g (run_good env op h g hg hx) hres

/-- An unpin issued when nothing is pinned passes the check. -/
theorem unpin_idle_not_violated (m : Monitor) (p : Int) (d : Bool) (h : Idle m) :
    (m.unpin p d).violated = false := by
  simp [Monitor.unpin, h.1, h.2 p]

/-- The base destructor, run from a good state, passes the check. -/
theorem close_not_violated (env : Env W) (h : HeapFile (W × Monitor)) (hg : Good h) :
    (HeapFile.close (monEnv env) h).world.2.violated = false := by
  have hidle := idle_before_read env h hg
  unfold HeapFile.close
  simp only [bufUnPinPage]
  cases hcp : h.curPage with
  | none =>
      simp only [hcp, Option.isSome_none, Bool.false_eq_true, if_false] at hidle ⊢
      exact unpin_idle_not_violated _ _ _ hidle
  | some a =>
      simp only [hcp, Option.isSome_some, if_true] at hidle ⊢
      have hidle2 : Idle (h.world.2.unpin h.curPageNo h.curDirtyFlag) := hidle
      exact unpin_idle_not_violated _ _ _ hidle2

/-- The destructor of a scan handle, run from a good state, passes the check. -/
theorem closeScan_not_violated (env : Env W) (h : HeapFile (W × Monitor)) (hg : Good h) :
    (HeapFileScan.close (monEnv env) h).world.2.violated = false :=
  close_not_violated env _ (endScan_good env h hg)

/-- The destructor of an insert handle, run from a good state, passes the
check. -/
theorem closeInsert_not_violated (env : Env W) (h : HeapFile (W × Monitor)) (hg : Good h) :
    (InsertFileScan.close (monEnv env) h).world.2.violated = false := by
  unfold InsertFileScan.close
  simp only
  refine close_not_violated env _ ?_
  split_ifs with hcp
  · exact goodCore_of_idle _ _ _ _ (idle_unpin _ _ _ _ (goodCore_flag _ _ _ _ hg))
  · exact hg

/-- The insertion on the current page leaves the header and its flag as they
were, or ends with `hdrDirtyFlag` true. -/
theorem insertOnPage_header (env : Env W) (h : HeapFile W) (rec : Record)
    (outRid : RID) (st : Status) (r : RID) (h' : HeapFile W)
    (hres : insertOnPage env h rec outRid = Except.ok (st, r, h')) :
    (h'.headerPage = h.headerPage ∧ h'.hdrDirtyFlag = h.hdrDirtyFlag) ∨
      h'.hdrDirtyFlag = true := by
  unfold insertOnPage at hres
  split at hres
  · simp at hres
  · simp only at hres
    split_ifs at hres
    all_goals
      simp only [Except.ok.injEq, Prod.mk.injEq] at hres
      rw [← hres.2.2]
      first
        | exact Or.inl ⟨rfl, rfl⟩
        | exact Or.inr rfl

/-- Every call leaves the header and its flag as they were, or ends with
`hdrDirtyFlag` true. -/
theorem run_header (env : Env W) (op : Op) (h h' : HeapFile W)
    (hres : op.run env h = Except.ok h') :
    (h'.headerPage = h.headerPage ∧ h'.hdrDirtyFlag = h.hdrDirtyFlag) ∨
      h'.hdrDirtyFlag = true := by
  cases op with
  | getRecord status0 rid =>
      simp only [Op.run] at hres
      cases hx : HeapFile.getRecord env status0 h rid with
      | error e => simp [hx, Except.map] at hres
      | ok x =>
          obtain ⟨st, rec, g⟩ := x
          simp only [hx, Except.map, Except.ok.injEq] at hres
          subst hres
          exact Or.inl (getRecord_untouched env status0 h rid st rec g hx).2.2
  | startScan o l t f c =>
      simp only [Op.run, Except.ok.injEq] at hres
      subst hres; exact Or.inl ⟨rfl, rfl⟩
  | endScan =>
      simp only [Op.run, Except.ok.injEq] at hres
      subst hres
      unfold HeapFileScan.endScan
      split_ifs <;> exact Or.inl ⟨rfl, rfl⟩
  | markScan =>
      simp only [Op.run, Except.ok.injEq] at hres
      subst hres; exact Or.inl ⟨rfl, rfl⟩
  | resetScan =>
      simp only [Op.run, Except.ok.injEq] at hres
      subst hres
      unfold HeapFileScan.resetScan
      simp only
      split_ifs <;> exact Or.inl ⟨rfl, rfl⟩
  | scanNext fuel tmpRid outRid =>
      simp only [Op.run] at hres
      cases hx : HeapFileScan.scanNext env fuel tmpRid outRid h with
      | error e => simp [hx, Except.map] at hres
      | ok x =>
          obtain ⟨st, r, g⟩ := x
          simp only [hx, Except.map, Except.ok.injEq] at hres
          subst hres
          exact Or.inl (scanNext_untouched env fuel tmpRid outRid h st r g hx).2.2
  | scanGetRecord =>
      simp only [Op.run] at hres
      cases hx : HeapFileScan.getRecord env h with
      | error e => simp [hx, Except.map] at hres
      | ok x =>
          simp only [hx, Except.map, Except.ok.injEq] at hres
          subst hres; exact Or.inl ⟨rfl, rfl⟩
  | deleteRecord =>
      simp only [Op.run] at hres
      unfold HeapFileScan.deleteRecord at hres
      split at hres
      · simp [Except.map] at hres
      · simp only [Except.map, Except.ok.injEq] at hres
        subst hres; exact Or.inr rfl
  | markDirty =>
      simp only [Op.run, Except.ok.injEq] at hres
      subst hres; exact Or.inl ⟨rfl, rfl⟩
  | insertRecord c rec outRid =>
      simp only [Op.run] at hres
      cases hx : InsertFileScan.insertRecord env c h rec outRid with
      | error e => simp [hx, Except.map] at hres
      | ok x =>
          obtain ⟨st, r, g⟩ := x
          simp only [hx, Except.map, Except.ok.injEq] at hres
          subst hres
          have hpin : (pinForInsert env h).2.headerPage = h.headerPage ∧
              (pinForInsert env h).2.hdrDirtyFlag = h.hdrDirtyFlag := by
            unfold pinForInsert
            split_ifs <;> exact ⟨rfl, rfl⟩
          unfold InsertFileScan.insertRecord insertAfterCheck at hx
          simp only at hx
          split_ifs at hx with h1 h2
          · simp only [Except.ok.injEq, Prod.mk.injEq] at hx
            rw [← hx.2.2]; exact Or.inl ⟨rfl, rfl⟩
          · simp only [Except.ok.injEq, Prod.mk.injEq] at hx
            rw [← hx.2.2]; exact Or.inl hpin
          · rcases insertOnPage_header env _ rec outRid st r g hx with h3 | h3
            · exact Or.inl ⟨h3.1.trans hpin.1, h3.2.trans hpin.2⟩
            · exact Or.inr h3

/-- After every sequence of calls the header and its flag are as they were,
or `hdrDirtyFlag` is true. -/
theorem runOps_header (env : Env W) (ops : List Op) (h h' : HeapFile W)
    (hres : runOps env ops h = Except.ok h') :
    (h'.headerPage = h.headerPage ∧ h'.hdrDirtyFlag = h.hdrDirtyFlag) ∨
      h'.hdrDirtyFlag = true := by
  induction ops generalizing h with
  | nil =>
      simp only [runOps, Except.ok.injEq] at hres
      subst hres; exact Or.inl ⟨rfl, rfl⟩
  | cons op rest ih =>
      simp only [runOps] at hres
      cases hx : op.run env h with
      | error e => simp [hx] at hres
      | ok g =>
          simp only [hx] at hres
          rcases ih g hres with h2 | h2
          · rcases run_header env op h g hx with h1 | h1
            · exact Or.inl ⟨h2.1.trans h1.1, h2.2.trans h1.2⟩
            · exact Or.inr (h2.2.trans h1)
          · exact Or.inr h2

/-! ## The checker does not alter the run -/

theorem mon_readPage_fst (env : Env W) (w : W × Monitor) (q : Int) :
    ((monEnv env).readPage w q).1 = (env.readPage w.1 q).1 := rfl

theorem mon_readPage_world (env : Env W) (w : W × Monitor) (q : Int) :
    ((monEnv env).readPage w q).2.1 = (env.readPage w.1 q).2 := rfl

theorem mon_allocPage_fst (env : Env W) (w : W × Monitor) :
    ((monEnv env).allocPage w).1 = (env.allocPage w.1).1 := rfl

theorem mon_allocPage_no (env : Env W) (w : W × Monitor) :
    ((monEnv env).allocPage w).2.1 = (env.allocPage w.1).2.1 := rfl

theorem mon_allocPage_world (env : Env W) (w : W × Monitor) :
    ((monEnv env).allocPage w).2.2.1 = (env.allocPage w.1).2.2 := rfl

theorem mon_unPinPage_fst (env : Env W) (w : W × Monitor) (q : Int) (d : Bool) :
    ((monEnv env).unPinPage w q d).1 = (env.unPinPage w.1 q d).1 := rfl

theorem mon_unPinPage_world (env : Env W) (w : W × Monitor) (q : Int) (d : Bool) :
    ((monEnv env).unPinPage w q d).2.1 = (env.unPinPage w.1 q d).2 := rfl

theorem mon_pageInit_world (env : Env W) (w : W × Monitor) (p q : Int) :
    ((monEnv env).pageInit w p q).1 = env.pageInit w.1 p q := rfl

theorem mon_pageInsertRecord_fst (env : Env W) (w : W × Monitor) (p : Int) (rec : Record) :
    ((monEnv env).pageInsertRecord w p rec).1 = (env.pageInsertRecord w.1 p rec).1 := rfl

theorem mon_pageInsertRecord_rid (env : Env W) (w : W × Monitor) (p : Int) (rec : Record) :
    ((monEnv env).pageInsertRecord w p rec).2.1 = (env.pageInsertRecord w.1 p rec).2.1 := rfl

theorem mon_pageInsertRecord_world (env : Env W) (w : W × Monitor) (p : Int) (rec : Record) :
    ((monEnv env).pageInsertRecord w p rec).2.2.1 = (env.pageInsertRecord w.1 p rec).2.2 := rfl

theorem mon_pageDeleteRecord_fst (env : Env W) (w : W × Monitor) (p : Int) (rid : RID) :
    ((monEnv env).pageDeleteRecord w p rid).1 = (env.pageDeleteRecord w.1 p rid).1 := rfl

theorem mon_pageDeleteRecord_world (env : Env W) (w : W × Monitor) (p : Int) (rid : RID) :
    ((monEnv env).pageDeleteRecord w p rid).2.1 = (env.pageDeleteRecord w.1 p rid).2 := rfl

theorem mon_pageGetRecord (env : Env W) (w : W × Monitor) (p : Int) (rid : RID) :
    (monEnv env).pageGetRecord w p rid = env.pageGetRecord w.1 p rid := rfl

theorem mon_pageNextRecord (env : Env W) (w : W × Monitor) (p : Int) (rid : RID) :
    (monEnv env).pageNextRecord w p rid = env.pageNextRecord w.1 p rid := rfl

theorem mon_pageGetNextPage (env : Env W) (w : W × Monitor) (p : Int) :
    (monEnv env).pageGetNextPage w p = env.pageGetNextPage w.1 p := rfl

theorem mon_pageSetNextPage_fst (env : Env W) (w : W × Monitor) (p q : Int) :
    ((monEnv env).pageSetNextPage w p q).1 = (env.pageSetNextPage w.1 p q).1 := rfl

theorem mon_pageSetNextPage_world (env : Env W) (w : W × Monitor) (p q : Int) :
    ((monEnv env).pageSetNextPage w p q).2.1 = (env.pageSetNextPage w.1 p q).2 := rfl

theorem mon_fsub (env : Env W) : (monEnv env).fsub = env.fsub := rfl

/-- With the checker attached `HeapFile::getRecord` returns what it returns
without it. -/
theorem getRecord_unwatched (env : Env W) (s0 : Status) (h : HeapFile (W × Monitor))
    (rid : RID) :
    (HeapFile.getRecord (monEnv env) s0 h rid).map (fun r => (r.1, r.2.1, r.2.2.unwatched)) =
      HeapFile.getRecord env s0 h.unwatched rid := by
  unfold HeapFile.getRecord
  simp only [bufReadPage, bufUnPinPage, HeapFile.unwatched, mon_readPage_fst,
    mon_readPage_world, mon_unPinPage_fst, mon_unPinPage_world, mon_pageGetRecord]
  cases hcp : h.curPage <;>
    simp only [Option.isSome_none, Option.isSome_some, Bool.false_eq_true, if_false, if_true]
  all_goals
    split_ifs <;>
      simp_all [Except.map, mon_readPage_fst, mon_readPage_world, mon_unPinPage_fst,
        mon_unPinPage_world, mon_pageGetRecord]

/-- With the checker attached `endScan` returns what it returns without it. -/
theorem endScan_unwatched (env : Env W) (h : HeapFile (W × Monitor)) :
    ((HeapFileScan.endScan (monEnv env) h).1, (HeapFileScan.endScan (monEnv env) h).2.unwatched) =
      HeapFileScan.endScan env h.unwatched := by
  unfold HeapFileScan.endScan
  simp only [bufUnPinPage, HeapFile.unwatched, mon_unPinPage_fst, mon_unPinPage_world]
  split_ifs <;> simp_all [mon_unPinPage_fst, mon_unPinPage_world]

/-- With the checker attached `resetScan` returns what it returns without it. -/
theorem resetScan_unwatched (env : Env W) (h : HeapFile (W × Monitor)) :
    ((HeapFileScan.resetScan (monEnv env) h).1,
      (HeapFileScan.resetScan (monEnv env) h).2.unwatched) =
      HeapFileScan.resetScan env h.unwatched := by
  unfold HeapFileScan.resetScan
  simp only [bufReadPage, bufUnPinPage, HeapFile.unwatched, mon_readPage_fst,
    mon_readPage_world, mon_unPinPage_fst, mon_unPinPage_world]
  split_ifs <;>
    simp_all [mon_readPage_fst, mon_readPage_world, mon_unPinPage_fst, mon_unPinPage_world]

/-- With the checker attached `deleteRecord` returns what it returns without
it. -/
theorem deleteRecord_unwatched (env : Env W) (h : HeapFile (W × Monitor)) :
    (HeapFileScan.deleteRecord (monEnv env) h).map (fun r => (r.1, r.2.unwatched)) =
      HeapFileScan.deleteRecord env h.unwatched := by
  unfold HeapFileScan.deleteRecord
  simp only [HeapFile.unwatched, mon_pageDeleteRecord_fst, mon_pageDeleteRecord_world]
  cases hcp : h.curPage <;>
    simp [Except.map, mon_pageDeleteRecord_fst, mon_pageDeleteRecord_world]

/-- With the checker attached `HeapFileScan::getRecord` returns what it
returns without it. -/
theorem scanGetRecord_unwatched (env : Env W) (h : HeapFile (W × Monitor)) :
    HeapFileScan.getRecord (monEnv env) h = HeapFileScan.getRecord env h.unwatched := by
  unfold HeapFileScan.getRecord
  simp only [HeapFile.unwatched, mon_pageGetRecord]

/-- With the checker attached `scanNext` returns what it returns without it. -/
theorem scanNext_unwatched (env : Env W) (fuel : Nat) (tmpRid outRid : RID)
    (h : HeapFile (W × Monitor)) :
    (HeapFileScan.scanNext (monEnv env) fuel tmpRid outRid h).map
        (fun r => (r.1, r.2.1, r.2.2.unwatched)) =
      HeapFileScan.scanNext env fuel tmpRid outRid h.unwatched := by
  induction fuel generalizing h with
  | zero => simp [HeapFileScan.scanNext, Except.map]
  | succ n ih =>
      unfold HeapFileScan.scanNext
      cases hcp : h.curPage with
      | none =>
          have hcp' : h.unwatched.curPage = none := hcp
          simp only [hcp', Except.map]
      | some p =>
          have hcp' : h.unwatched.curPage = some p := hcp
          have hw : h.unwatched.world = h.world.1 := rfl
          have hs : h.unwatched.scan = h.scan := rfl
          have hn : h.unwatched.curPageNo = h.curPageNo := rfl
          have hf : h.unwatched.curDirtyFlag = h.curDirtyFlag := rfl
          simp only [hcp', hw, hs, hn, hf, mon_pageNextRecord, mon_pageGetNextPage,
            mon_pageGetRecord, mon_fsub]
          by_cases h1 : (env.pageNextRecord h.world.1 p tmpRid).1 = Status.ENDOFPAGE
          · simp only [h1, if_true]
            by_cases h2 : (env.pageGetNextPage h.world.1 p).1 = Status.OK
            · simp only [h2, ne_eq, not_true_eq_false, if_false]
              have hr1 : (bufReadPage (monEnv env)
                  (bufUnPinPage (monEnv env) h h.curPageNo h.curDirtyFlag).2
                  (env.pageGetNextPage h.world.1 p).2).1 =
                (bufReadPage env (bufUnPinPage env h.unwatched h.curPageNo h.curDirtyFlag).2
                  (env.pageGetNextPage h.world.1 p).2).1 := rfl
              rw [hr1]
              by_cases h3 : (bufReadPage env
                  (bufUnPinPage env h.unwatched h.curPageNo h.curDirtyFlag).2
                  (env.pageGetNextPage h.world.1 p).2).1 = Status.OK
              · simp only [h3, not_true_eq_false, if_false]
                rw [ih]
                rfl
              · simp only [h3, not_false_eq_true, if_true]
                rfl
            · simp only [h2, ne_eq, not_false_eq_true, if_true]
              rfl
          · simp only [h1, if_false]
            by_cases h4 : (env.pageNextRecord h.world.1 p tmpRid).1 = Status.OK
            · simp only [h4, ne_eq, not_true_eq_false, if_false]
              by_cases h5 : (env.pageGetRecord h.world.1 p outRid).1 = Status.OK
              · simp only [h5, not_true_eq_false, if_false]
                cases hm : matchRec env.fsub h.scan (env.pageGetRecord h.world.1 p outRid).2 with
                | error e => rfl
                | ok b =>
                    cases b with
                    | true => rfl
                    | false => exact ih h
              · simp only [h5, not_false_eq_true, if_true]
                rfl
            · simp only [h4, ne_eq, not_false_eq_true, if_true]
              rfl

/-- With the checker attached the insertion on the current page returns what
it returns without it. -/
theorem insertOnPage_unwatched (env : Env W) (h : HeapFile (W × Monitor)) (rec : Record)
    (outRid : RID) :
    (insertOnPage (monEnv env) h rec outRid).map (fun r => (r.1, r.2.1, r.2.2.unwatched)) =
      insertOnPage env h.unwatched rec outRid := by
  unfold insertOnPage
  cases hcp : h.curPage with
  | none =>
      have hcp' : h.unwatched.curPage = none := hcp
      simp only [hcp', Except.map]
  | some p =>
      have hcp' : h.unwatched.curPage = some p := hcp
      simp only [hcp', bufAllocPage, bufUnPinPage, HeapFile.unwatched, mon_allocPage_fst,
        mon_allocPage_no, mon_allocPage_world, mon_unPinPage_fst, mon_unPinPage_world,
        mon_pageInit_world, mon_pageInsertRecord_fst, mon_pageInsertRecord_rid,
        mon_pageInsertRecord_world, mon_pageSetNextPage_fst, mon_pageSetNextPage_world]
      split_ifs <;>
        simp_all [Except.map, mon_allocPage_fst, mon_allocPage_no, mon_allocPage_world,
          mon_unPinPage_fst, mon_unPinPage_world, mon_pageInit_world,
          mon_pageInsertRecord_fst, mon_pageInsertRecord_rid, mon_pageInsertRecord_world,
          mon_pageSetNextPage_fst, mon_pageSetNextPage_world]

/-- With the checker attached `insertRecord` returns what it returns without
it. -/
theorem insertRecord_unwatched (env : Env W) (c : Consts) (h : HeapFile (W × Monitor))
    (rec : Record) (outRid : RID) :
    (InsertFileScan.insertRecord (monEnv env) c h rec outRid).map
        (fun r => (r.1, r.2.1, r.2.2.unwatched)) =
      InsertFileScan.insertRecord env c h.unwatched rec outRid := by
  have hpin1 : (pinForInsert (monEnv env) h).1 = (pinForInsert env h.unwatched).1 := by
    unfold pinForInsert
    cases hcp : h.curPage with
    | none =>
        have hcp' : h.unwatched.curPage = none := hcp
        simp only [hcp', Option.isNone_none, if_true]
        rfl
    | some p =>
        have hcp' : h.unwatched.curPage = some p := hcp
        simp only [hcp', Option.isNone_some, Bool.false_eq_true, if_false]
  have hpin2 : (pinForInsert (monEnv env) h).2.unwatched = (pinForInsert env h.unwatched).2 := by
    unfold pinForInsert
    cases hcp : h.curPage with
    | none =>
        have hcp' : h.unwatched.curPage = none := hcp
        simp only [hcp', Option.isNone_none, if_true]
        rfl
    | some p =>
        have hcp' : h.unwatched.curPage = some p := hcp
        simp only [hcp', Option.isNone_some, Bool.false_eq_true, if_false]
  unfold InsertFileScan.insertRecord insertAfterCheck
  simp only
  rw [← hpin1, ← hpin2]
  split_ifs
  · rfl
  · rfl
  · exact insertOnPage_unwatched env _ rec outRid

/-- With the checker attached every call leaves the handle it leaves without
it. -/
theorem run_unwatched (env : Env W) (op : Op) (h : HeapFile (W × Monitor)) :
    (op.run (monEnv env) h).map HeapFile.unwatched = op.run env h.unwatched := by
  cases op with
  | getRecord status0 rid =>
      simp only [Op.run]
      rw [← getRecord_unwatched]
      cases HeapFile.getRecord (monEnv env) status0 h rid <;> rfl
  | startScan o l t f c => rfl
  | endScan =>
      simp only [Op.run, Except.map]
      rw [← endScan_unwatched]
  | markScan => rfl
  | resetScan =>
      simp only [Op.run, Except.map]
      rw [← resetScan_unwatched]
  | scanNext fuel tmpRid outRid =>
      simp only [Op.run]
      rw [← scanNext_unwatched]
      cases HeapFileScan.scanNext (monEnv env) fuel tmpRid outRid h <;> rfl
  | scanGetRecord =>
      simp only [Op.run]
      rw [← scanGetRecord_unwatched]
      cases HeapFileScan.getRecord (monEnv env) h <;> rfl
  | deleteRecord =>
      simp only [Op.run]
      rw [← deleteRecord_unwatched]
      cases HeapFileScan.deleteRecord (monEnv env) h <;> rfl
  | markDirty => rfl
  | insertRecord c rec outRid =>
      simp only [Op.run]
      rw [← insertRecord_unwatched]
      cases InsertFileScan.insertRecord (monEnv env) c h rec outRid <;> rfl

/-- With the checker attached every sequence of calls leaves the handle it
leaves without it. -/
theorem runOps_unwatched (env : Env W) (ops : List Op) (h : HeapFile (W × Monitor)) :
    (runOps (monEnv env) ops h).map HeapFile.unwatched = runOps env ops h.unwatched := by
  induction ops generalizing h with
  | nil => rfl
  | cons op rest ih =>
      simp only [runOps]
      rw [← run_unwatched]
      cases hx : op.run (monEnv env) h with
      | error e => rfl
      | ok g =>
          simp only [Except.map]
          exact ih g

/-- The checker reports a changed page that is unpinned with dirty false. -/
theorem monitor_detects :
    (((Monitor.init.pin 2).change 2).unpin 2 false).violated = true ∧
    (((Monitor.init.pin 2).change 2).unpin 2 true).violated = false ∧
    ((Monitor.init.pin 2).unpin 2 false).violated = false := by
  refine ⟨by decide, by decide, by decide⟩

/-- C20: for every sequence of calls on a handle, run from a state in which
the checker has seen no pin: the run with the checker attached ends in the
same handle, no unpin of the sequence released with dirty false a page
changed through the handle since it was pinned, neither does the unpin of
the data page by any of the three destructors run afterwards, and if the
header differs from the header at the start then `hdrDirtyFlag` is true. -/
theorem dirty_flags_propagate (env : Env W) (h0 h1 : HeapFile W) (ops : List Op)
    (hrun : runOps env ops h0 = Except.ok h1) :
    ∃ h' : HeapFile (W × Monitor),
      runOps (monEnv env) ops h0.watched = Except.ok h' ∧
      h'.unwatched = h1 ∧
      h'.world.2.violated = false ∧
      (HeapFile.close (monEnv env) h').world.2.violated = false ∧
      (HeapFileScan.close (monEnv env) h').world.2.violated = false ∧
      (InsertFileScan.close (monEnv env) h').world.2.violated = false ∧
      (h1.headerPage ≠ h0.headerPage → h1.hdrDirtyFlag = true) := by
  have hsim := runOps_unwatched env ops h0.watched
  have hw : h0.watched.unwatched = h0 := rfl
  rw [hw, hrun] at hsim
  cases hx : runOps (monEnv env) ops h0.watched with
  | error e => simp [hx, Except.map] at hsim
  | ok h' =>
      simp only [hx, Except.map, Except.ok.injEq] at hsim
      have h0good : Good h0.watched :=
        goodCore_of_idle _ _ _ _ ⟨rfl, fun _ => rfl⟩
      have hgood := runOps_good env ops h0.watched h' h0good hx
      refine ⟨h', rfl, hsim, hgood.1, close_not_violated env h' hgood,
        closeScan_not_violated env h' hgood, closeInsert_not_violated env h' hgood, ?_⟩
      intro hne
      rcases runOps_header env ops h0 h1 hrun with h2 | h2
      · exact absurd h2.1 hne
      · exact h2

/-- C20 at a concrete input: two insertions of 600 bytes on a new file; the
second overflows page 2, which is unpinned with dirty true. -/
theorem dirty_flags_propagate_witness :
    BufCall.unPinPage 2 true ∈ (afterTwoInserts 600).trace ∧
    ∃ h' : HeapFile (SimWorld × Monitor),
      runOps (monEnv (simEnv simConsts))
        [Op.insertRecord simConsts (mkRecord 600 65) RID.init,
         Op.insertRecord simConsts (mkRecord 600 66) RID.init] freshInsert.watched =
        Except.ok h' ∧
      h'.unwatched = afterTwoInserts 600 ∧
      h'.world.2.violated = false ∧
      (HeapFile.close (monEnv (simEnv simConsts)) h').world.2.violated = false ∧
      (HeapFileScan.close (monEnv (simEnv simConsts)) h').world.2.violated = false ∧
      (InsertFileScan.close (monEnv (simEnv simConsts)) h').world.2.violated = false ∧
      ((afterTwoInserts 600).headerPage ≠ freshInsert.headerPage →
        (afterTwoInserts 600).hdrDirtyFlag = true) :=
  ⟨by decide,
   dirty_flags_propagate (simEnv simConsts) freshInsert (afterTwoInserts 600)
     [Op.insertRecord simConsts (mkRecord 600 65) RID.init,
      Op.insertRecord simConsts (mkRecord 600 66) RID.init] rfl⟩

end HeapFileModel
